import Mathlib

/-!
Verification development for the WebHook-Notifier event pipeline.

This file is a shallow embedding of the repository's normalization and
delivery code into Lean:

* `src/git_payload_parser.py`  — `verify_signature`, `parse_github_payload`
  (all 21 dedicated event branches plus the generic fallback),
  `parse_gitlab_payload`, `parse_gitea_payload`, `parse_gogs_payload`;
* `src/netlify_payload_parser.py` and `src/generic_payload_parser.py` —
  their `parse_payload` methods;
* `src/rss_payload_parser.py` — `_verify_webhook_signature`,
  `parse_rss_webhook`;
* `src/rss_monitor.py` — `get_article_id` and the diffing loop of
  `check_feed`;
* `src/notification_dispatcher.py` — the Telegram message chunking of
  `send_telegram_message`;
* `src/main.py` — the decision logic of the `/webhook/git` route.

Modelling conventions, fixed once for the whole file:

* Python dicts parsed from JSON are modelled by the inductive `Json`;
  Python byte strings (request bodies, secrets) are modelled by `String`.
* External cryptographic and serialization primitives from the Python
  standard library (`hmac`/`hashlib` hexdigests, `hashlib.md5`,
  `json.dumps(..., separators=(',', ':'))`) are not reimplemented; the
  embedded functions are parameterized over them (`ExtFns`), exactly as
  the source treats them as black-box library calls.
* `hmac.compare_digest` is constant-time string equality; timing is not
  observable in the model, so it is plain equality.
* Wall-clock reads (`datetime.now().isoformat()`) become an explicit
  `now : String` argument.
* Python truthiness on JSON values is `Json.truthy`; `d.get(k)` is
  `Json.getN`, `d.get(k, default)` is `Json.getD`.  Where the source
  applies string operations (`len`, slicing, `.split`) to a field and
  would raise a `TypeError` on a non-string value (propagating to the
  route's generic 500 handler), the model reads the field with
  `Json.getStr`, which yields `""` for a non-string; the claims below
  are stated on payloads where this difference is invisible.
* Python exceptions inside `try`-blocks that the source converts to
  `return None` are modelled by returning `none` directly.
-/

set_option maxRecDepth 4096

namespace WebhookNotifier

/-- JSON values as produced by `json.loads`: the payloads all parsers
receive. -/
inductive Json where
  | null
  | bool (b : Bool)
  | num (n : Int)
  | str (s : String)
  | arr (elems : List Json)
  | obj (entries : List (String × Json))

/-- First-match association lookup inside a JSON object body. Object
literals in this file are duplicate-free, so first-match equals the
Python dict lookup. -/
def Json.lookupKey : List (String × Json) → String → Option Json
  | [], _ => none
  | (k, v) :: rest, key => if k == key then some v else Json.lookupKey rest key

/-- Membership-or-nothing lookup: `key in d` / `d[key]`. Non-objects have
no keys. -/
def Json.lookup : Json → String → Option Json
  | .obj es, key => Json.lookupKey es key
  | _, _ => none

/-- Python `d.get(key, default)`. -/
def Json.getD (j : Json) (key : String) (d : Json) : Json :=
  (j.lookup key).getD d

/-- Python `d.get(key)` (default `None`). -/
def Json.getN (j : Json) (key : String) : Json :=
  j.getD key .null

/-- Python `d.get(key, '')` in a position where the source then applies
string operations; a present non-string value (on which the source would
raise) is read as the default. -/
def Json.getStr (j : Json) (key : String) : String :=
  match j.lookup key with
  | some (.str s) => s
  | _ => ""

/-- Like `Json.getStr` with an explicit default, for
`payload.get('state', 'unknown')`. -/
def Json.getStrD (j : Json) (key : String) (d : String) : String :=
  match j.lookup key with
  | some (.str s) => s
  | some _ => d
  | none => d

/-- Python truthiness of a JSON value. -/
def Json.truthy : Json → Bool
  | .null => false
  | .bool b => b
  | .num n => n != 0
  | .str s => s != ""
  | .arr xs => !xs.isEmpty
  | .obj es => !es.isEmpty

/-- Python `x or y` on JSON values (left operand if truthy, else right). -/
def Json.orElse (a b : Json) : Json :=
  if a.truthy then a else b

/-- Iteration over a value expected to be a JSON list. -/
def Json.asArr : Json → List Json
  | .arr xs => xs
  | _ => []

/-- Python `xs[-1]` on a JSON list (used on a commits list already known
to be truthy). -/
def Json.lastElem (j : Json) : Json :=
  (j.asArr).getLast?.getD (.obj [])

/-- ASCII lowercasing of one character, as `str.lower()` acts on the
ASCII header names used by the source. -/
def lcChar (c : Char) : Char :=
  if 'A' ≤ c ∧ c ≤ 'Z' then Char.ofNat (c.toNat + 32) else c

/-- ASCII lowercasing of a string (header keys are ASCII). -/
def lcStr (s : String) : String := ⟨s.data.map lcChar⟩

/-- Lookup in the reversed pair list: combined with `List.reverse` below
this gives the later-entry-wins semantics of a Python dict comprehension. -/
def revLookup : List (String × String) → String → Option String
  | [], _ => none
  | (k, v) :: rest, key => if k == key then some v else revLookup rest key

/-- Model of the lowercased-headers dict build followed by its `get`:
keys are ASCII-lowercased and later duplicates win, then the (already
lowercase) key is looked up. -/
def headersGet (headers : List (String × String)) (key : String) : Option String :=
  revLookup ((headers.map (fun p => (lcStr p.1, p.2))).reverse) key

/-- Plain `headers.get(key)` on the raw dict, no lowercasing (used by the
Netlify and generic parse methods). -/
def rawHeaderGet (headers : List (String × String)) (key : String) : Option String :=
  revLookup headers.reverse key

/-- The standard-library primitives the source calls and this embedding
treats as black-box parameters: keyed HMAC hexdigests, the MD5 hexdigest,
and `json.dumps(payload, separators=(',', ':'))`. -/
structure ExtFns where
  hmacSha1 : String → String → String
  hmacSha256 : String → String → String
  md5Hex : String → String
  dumps : Json → String

/-- Embeds `GitPayloadParser._verify_signature(payload_body, secret, signature_header, algo)`:
empty secret passes unconditionally; missing header fails; otherwise the
presented header is compared (constant-time in the source) against the
scheme-specific expected value. -/
def verify_signature (fns : ExtFns) (payload_body : String) (secret : String)
    (signature_header : String) (algo : String) : Bool :=
  if secret = "" then true
  else if signature_header = "" then false
  else if algo = "sha1" then
    ("sha1=" ++ fns.hmacSha1 secret payload_body) == signature_header
  else if algo = "sha256" then
    fns.hmacSha256 secret payload_body == signature_header
  else false

/-- Python `s[:n]` (slicing by code points, as Lean `String.data` chars). -/
def strTake (s : String) (n : Nat) : String := ⟨s.data.take n⟩

/-- The truncation expression used verbatim on comment and review bodies:
`body[:200] + '...' if len(body) > 200 else body`. -/
def truncateBody (body : String) : String :=
  if body.length > 200 then strTake body 200 ++ "..." else body

/-- Python `s.split('\n')[0] if s else ''` pattern: the first line. -/
def firstLine (s : String) : String := ⟨s.data.takeWhile (fun c => c ≠ '\n')⟩

/-- A normalized event: the insertion-ordered dict every parse function
returns. -/
abbrev Event := List (String × Json)

/-- Field access on a normalized event. -/
def eventField (e : Event) (key : String) : Option Json :=
  Json.lookupKey e key

/-- Option-to-JSON for the `event_type` of the generic GitHub handler
(`None` if the discriminator header was absent). -/
def jOptStr : Option String → Json
  | some s => .str s
  | none => .null

/-- Shorthand for `payload.get('repository', {}).get('full_name')` in
`parse_github_payload`. -/
def ghRepoName (p : Json) : Json :=
  (p.getD "repository" (.obj [])).getN "full_name"

/-- GitHub `push` branch of `parse_github_payload`. -/
def githubPushEvent (p : Json) : Event :=
  let latest := p.getD "head_commit" (.obj [])
  [("platform", .str "GitHub"),
   ("event_type", .str "push"),
   ("repository_name", ghRepoName p),
   ("branch", .str ((p.getStr "ref").replace "refs/heads/" "")),
   ("commit_message",
     .str (if (latest.getN "message").truthy then firstLine (latest.getStr "message") else "")),
   ("author_name", (latest.getD "author" (.obj [])).getN "name"),
   ("commit_url", latest.getN "url"),
   ("timestamp", latest.getN "timestamp")]

/-- GitHub `workflow_run` branch. -/
def githubWorkflowRunEvent (p : Json) : Event :=
  let wr := p.getD "workflow_run" (.obj [])
  let sender := p.getD "sender" (.obj [])
  let hc := wr.getD "head_commit" (.obj [])
  [("platform", .str "GitHub"),
   ("event_type", .str "workflow_run"),
   ("repository_name", ghRepoName p),
   ("workflow_name", (p.getD "workflow" (.obj [])).getD "name" (.str "Unknown")),
   ("workflow_status",
     (wr.lookup "conclusion").getD ((wr.lookup "status").getD (.str "Unknown"))),
   ("workflow_url", wr.getD "html_url" (.str "")),
   ("artifacts_url", wr.getD "artifacts_url" (.str "")),
   ("branch", wr.getD "head_branch" (.str "")),
   ("commit_message",
     .str (if (hc.getN "message").truthy then firstLine (hc.getStr "message") else "")),
   ("author_name", sender.getD "login" (.str "")),
   ("timestamp", wr.getD "created_at" (.str ""))]

/-- GitHub `pull_request` branch. -/
def githubPullRequestEvent (p : Json) : Event :=
  let pr := p.getD "pull_request" (.obj [])
  let sender := p.getD "sender" (.obj [])
  [("platform", .str "GitHub"),
   ("event_type", .str "pull_request"),
   ("repository_name", ghRepoName p),
   ("pr_number", pr.getN "number"),
   ("pr_title", pr.getD "title" (.str "")),
   ("pr_state", pr.getD "state" (.str "")),
   ("pr_url", pr.getD "html_url" (.str "")),
   ("branch", (pr.getD "head" (.obj [])).getD "ref" (.str "")),
   ("author_name", sender.getD "login" (.str "")),
   ("timestamp", pr.getD "updated_at" (.str ""))]

/-- One entry of the `asset_info` list built in the `release` branch. -/
def ghAssetInfo (a : Json) : Json :=
  .obj [("name", a.getD "name" (.str "")),
        ("size", a.getD "size" (.num 0)),
        ("download_url", a.getD "browser_download_url" (.str "")),
        ("content_type", a.getD "content_type" (.str ""))]

/-- GitHub `release` branch. -/
def githubReleaseEvent (p : Json) : Event :=
  let rel := p.getD "release" (.obj [])
  let sender := p.getD "sender" (.obj [])
  [("platform", .str "GitHub"),
   ("event_type", .str "release"),
   ("repository_name", ghRepoName p),
   ("release_tag", rel.getD "tag_name" (.str "")),
   ("release_name", rel.getD "name" (.str "")),
   ("release_url", rel.getD "html_url" (.str "")),
   ("author_name", sender.getD "login" (.str "")),
   ("timestamp", rel.getD "published_at" (.str "")),
   ("assets", .arr ((rel.getD "assets" (.arr [])).asArr.map ghAssetInfo))]

/-- GitHub `create` branch. -/
def githubCreateEvent (p : Json) : Event :=
  let sender := p.getD "sender" (.obj [])
  [("platform", .str "GitHub"),
   ("event_type", .str "create"),
   ("repository_name", ghRepoName p),
   ("ref_type", p.getD "ref_type" (.str "")),
   ("ref", p.getD "ref" (.str "")),
   ("branch", if p.getStr "ref_type" = "branch" then p.getD "ref" (.str "") else .str ""),
   ("author_name", sender.getD "login" (.str "")),
   ("timestamp", (p.getD "repository" (.obj [])).getD "updated_at" (.str ""))]

/-- GitHub `delete` branch. -/
def githubDeleteEvent (p : Json) : Event :=
  let sender := p.getD "sender" (.obj [])
  [("platform", .str "GitHub"),
   ("event_type", .str "delete"),
   ("repository_name", ghRepoName p),
   ("ref_type", p.getD "ref_type" (.str "")),
   ("ref", p.getD "ref" (.str "")),
   ("branch", if p.getStr "ref_type" = "branch" then p.getD "ref" (.str "") else .str ""),
   ("author_name", sender.getD "login" (.str "")),
   ("timestamp", (p.getD "repository" (.obj [])).getD "updated_at" (.str ""))]

/-- GitHub `issues` branch. -/
def githubIssuesEvent (p : Json) : Event :=
  let issue := p.getD "issue" (.obj [])
  let sender := p.getD "sender" (.obj [])
  [("platform", .str "GitHub"),
   ("event_type", .str "issues"),
   ("repository_name", ghRepoName p),
   ("action", p.getD "action" (.str "")),
   ("issue_number", issue.getN "number"),
   ("issue_title", issue.getD "title" (.str "")),
   ("issue_url", issue.getD "html_url" (.str "")),
   ("author_name", sender.getD "login" (.str "")),
   ("timestamp", issue.getD "updated_at" (.str ""))]

/-- GitHub `issue_comment` branch; the comment body is truncated here, at
normalization time. -/
def githubIssueCommentEvent (p : Json) : Event :=
  let issue := p.getD "issue" (.obj [])
  let comment := p.getD "comment" (.obj [])
  let sender := p.getD "sender" (.obj [])
  [("platform", .str "GitHub"),
   ("event_type", .str "issue_comment"),
   ("repository_name", ghRepoName p),
   ("action", p.getD "action" (.str "")),
   ("issue_number", issue.getN "number"),
   ("issue_title", issue.getD "title" (.str "")),
   ("comment_body", .str (truncateBody (comment.getStr "body"))),
   ("comment_url", comment.getD "html_url" (.str "")),
   ("author_name", sender.getD "login" (.str "")),
   ("timestamp", comment.getD "updated_at" (.str ""))]

/-- GitHub `check_suite` branch. -/
def githubCheckSuiteEvent (p : Json) : Event :=
  let cs := p.getD "check_suite" (.obj [])
  let sender := p.getD "sender" (.obj [])
  [("platform", .str "GitHub"),
   ("event_type", .str "check_suite"),
   ("repository_name", ghRepoName p),
   ("action", p.getD "action" (.str "")),
   ("check_suite_id", cs.getN "id"),
   ("head_branch", cs.getD "head_branch" (.str "")),
   ("head_sha", cs.getD "head_sha" (.str "")),
   ("conclusion", cs.getD "conclusion" (.str "")),
   ("status", cs.getD "status" (.str "")),
   ("check_suite_url", cs.getD "html_url" (.str "")),
   ("author_name", sender.getD "login" (.str "")),
   ("timestamp", cs.getD "created_at" (.str ""))]

/-- GitHub `check_run` branch. -/
def githubCheckRunEvent (p : Json) : Event :=
  let cr := p.getD "check_run" (.obj [])
  let sender := p.getD "sender" (.obj [])
  [("platform", .str "GitHub"),
   ("event_type", .str "check_run"),
   ("repository_name", ghRepoName p),
   ("action", p.getD "action" (.str "")),
   ("check_run_id", cr.getN "id"),
   ("name", cr.getD "name" (.str "")),
   ("head_branch", cr.getD "head_branch" (.str "")),
   ("head_sha", cr.getD "head_sha" (.str "")),
   ("conclusion", cr.getD "conclusion" (.str "")),
   ("status", cr.getD "status" (.str "")),
   ("check_run_url", cr.getD "html_url" (.str "")),
   ("author_name", sender.getD "login" (.str "")),
   ("timestamp", cr.getD "started_at" (.str ""))]

/-- GitHub `fork` branch. -/
def githubForkEvent (p : Json) : Event :=
  let forkee := p.getD "forkee" (.obj [])
  let sender := p.getD "sender" (.obj [])
  [("platform", .str "GitHub"),
   ("event_type", .str "fork"),
   ("repository_name", ghRepoName p),
   ("fork_name", forkee.getD "full_name" (.str "")),
   ("fork_url", forkee.getD "html_url" (.str "")),
   ("author_name", sender.getD "login" (.str "")),
   ("timestamp", (p.getD "repository" (.obj [])).getD "updated_at" (.str ""))]

/-- GitHub `watch` branch. -/
def githubWatchEvent (p : Json) : Event :=
  let sender := p.getD "sender" (.obj [])
  [("platform", .str "GitHub"),
   ("event_type", .str "watch"),
   ("repository_name", ghRepoName p),
   ("action", p.getD "action" (.str "")),
   ("author_name", sender.getD "login" (.str "")),
   ("timestamp", (p.getD "repository" (.obj [])).getD "updated_at" (.str ""))]

/-- GitHub `commit_comment` branch. -/
def githubCommitCommentEvent (p : Json) : Event :=
  let comment := p.getD "comment" (.obj [])
  let sender := p.getD "sender" (.obj [])
  [("platform", .str "GitHub"),
   ("event_type", .str "commit_comment"),
   ("repository_name", ghRepoName p),
   ("action", p.getD "action" (.str "")),
   ("commit_id", .str (strTake (comment.getStr "commit_id") 7)),
   ("comment_body", .str (truncateBody (comment.getStr "body"))),
   ("comment_url", comment.getD "html_url" (.str "")),
   ("author_name", sender.getD "login" (.str "")),
   ("timestamp", comment.getD "created_at" (.str ""))]

/-- GitHub `pull_request_review` branch; the review body is truncated
here, at normalization time. -/
def githubPullRequestReviewEvent (p : Json) : Event :=
  let review := p.getD "review" (.obj [])
  let pr := p.getD "pull_request" (.obj [])
  let sender := p.getD "sender" (.obj [])
  [("platform", .str "GitHub"),
   ("event_type", .str "pull_request_review"),
   ("repository_name", ghRepoName p),
   ("action", p.getD "action" (.str "")),
   ("pr_number", pr.getN "number"),
   ("pr_title", pr.getD "title" (.str "")),
   ("review_state", review.getD "state" (.str "")),
   ("review_body", .str (truncateBody (review.getStr "body"))),
   ("review_url", review.getD "html_url" (.str "")),
   ("author_name", sender.getD "login" (.str "")),
   ("timestamp", review.getD "submitted_at" (.str ""))]

/-- GitHub `pull_request_review_comment` branch. -/
def githubPrReviewCommentEvent (p : Json) : Event :=
  let comment := p.getD "comment" (.obj [])
  let pr := p.getD "pull_request" (.obj [])
  let sender := p.getD "sender" (.obj [])
  [("platform", .str "GitHub"),
   ("event_type", .str "pull_request_review_comment"),
   ("repository_name", ghRepoName p),
   ("action", p.getD "action" (.str "")),
   ("pr_number", pr.getN "number"),
   ("pr_title", pr.getD "title" (.str "")),
   ("comment_body", .str (truncateBody (comment.getStr "body"))),
   ("comment_url", comment.getD "html_url" (.str "")),
   ("author_name", sender.getD "login" (.str "")),
   ("timestamp", comment.getD "created_at" (.str ""))]

/-- GitHub `deployment` branch. -/
def githubDeploymentEvent (p : Json) : Event :=
  let dep := p.getD "deployment" (.obj [])
  let sender := p.getD "sender" (.obj [])
  [("platform", .str "GitHub"),
   ("event_type", .str "deployment"),
   ("repository_name", ghRepoName p),
   ("deployment_id", dep.getN "id"),
   ("environment", dep.getD "environment" (.str "")),
   ("task", dep.getD "task" (.str "")),
   ("state", dep.getD "status" (.str "")),
   ("deployment_url", dep.getD "url" (.str "")),
   ("head_branch", dep.getD "ref" (.str "")),
   ("head_sha", .str (strTake (dep.getStr "sha") 7)),
   ("author_name", sender.getD "login" (.str "")),
   ("timestamp", dep.getD "created_at" (.str ""))]

/-- GitHub `status` branch. -/
def githubStatusEvent (p : Json) : Event :=
  let sender := p.getD "sender" (.obj [])
  [("platform", .str "GitHub"),
   ("event_type", .str "status"),
   ("repository_name", ghRepoName p),
   ("state", p.getD "state" (.str "")),
   ("target_url", p.getD "target_url" (.str "")),
   ("description", p.getD "description" (.str "")),
   ("context", p.getD "context" (.str "")),
   ("sha", .str (strTake (p.getStr "sha") 7)),
   ("branches", .arr ((p.getD "branches" (.arr [])).asArr.map (fun b => b.getD "name" (.str "")))),
   ("author_name", sender.getD "login" (.str "")),
   ("timestamp", p.getD "updated_at" (.str ""))]

/-- GitHub `repository` branch. -/
def githubRepositoryEvent (p : Json) : Event :=
  let sender := p.getD "sender" (.obj [])
  [("platform", .str "GitHub"),
   ("event_type", .str "repository"),
   ("repository_name", ghRepoName p),
   ("action", p.getD "action" (.str "")),
   ("repository_url", (p.getD "repository" (.obj [])).getD "html_url" (.str "")),
   ("repository_description", (p.getD "repository" (.obj [])).getD "description" (.str "")),
   ("author_name", sender.getD "login" (.str "")),
   ("timestamp", (p.getD "repository" (.obj [])).getD "updated_at" (.str ""))]

/-- GitHub `member` branch. -/
def githubMemberEvent (p : Json) : Event :=
  let member := p.getD "member" (.obj [])
  let sender := p.getD "sender" (.obj [])
  [("platform", .str "GitHub"),
   ("event_type", .str "member"),
   ("repository_name", ghRepoName p),
   ("action", p.getD "action" (.str "")),
   ("member_name", member.getD "login" (.str "")),
   ("member_url", member.getD "html_url" (.str "")),
   ("author_name", sender.getD "login" (.str "")),
   ("timestamp", (p.getD "repository" (.obj [])).getD "updated_at" (.str ""))]

/-- GitHub `milestone` branch. -/
def githubMilestoneEvent (p : Json) : Event :=
  let ms := p.getD "milestone" (.obj [])
  let sender := p.getD "sender" (.obj [])
  [("platform", .str "GitHub"),
   ("event_type", .str "milestone"),
   ("repository_name", ghRepoName p),
   ("action", p.getD "action" (.str "")),
   ("milestone_number", ms.getN "number"),
   ("milestone_title", ms.getD "title" (.str "")),
   ("milestone_state", ms.getD "state" (.str "")),
   ("milestone_url", ms.getD "html_url" (.str "")),
   ("author_name", sender.getD "login" (.str "")),
   ("timestamp", ms.getD "updated_at" (.str ""))]

/-- GitHub `label` branch. -/
def githubLabelEvent (p : Json) : Event :=
  let lab := p.getD "label" (.obj [])
  let sender := p.getD "sender" (.obj [])
  [("platform", .str "GitHub"),
   ("event_type", .str "label"),
   ("repository_name", ghRepoName p),
   ("action", p.getD "action" (.str "")),
   ("label_name", lab.getD "name" (.str "")),
   ("label_color", lab.getD "color" (.str "")),
   ("label_url", lab.getD "url" (.str "")),
   ("author_name", sender.getD "login" (.str "")),
   ("timestamp", (p.getD "repository" (.obj [])).getD "updated_at" (.str ""))]

/-- Base fields of `_parse_generic_github_event` (sender, repository,
action, timestamp chain of `or`-defaults). -/
def ghGenericBase (ev : Option String) (p : Json) : Event :=
  let sender := p.getD "sender" (.obj [])
  let repository := p.getD "repository" (.obj [])
  [("platform", .str "GitHub"),
   ("event_type", jOptStr ev),
   ("repository_name", (repository.lookup "full_name").getD (repository.getD "name" (.str "Unknown"))),
   ("action", p.getD "action" (.str "")),
   ("author_name", sender.getD "login" (.str "Unknown")),
   ("timestamp",
     Json.orElse (p.getN "updated_at")
       (Json.orElse (p.getN "created_at") (repository.getD "updated_at" (.str "")))),
   ("repository_url", repository.getD "html_url" (.str "")),
   ("repository_description", repository.getD "description" (.str ""))]

/-- Fields contributed by a present `pull_request` object in the generic
handler. -/
def ghPrBlock (p : Json) : Event :=
  let pr := p.getN "pull_request"
  [("pr_number", pr.getN "number"),
   ("pr_title", pr.getD "title" (.str "")),
   ("pr_url", pr.getD "html_url" (.str ""))]

/-- Fields contributed by a present `issue` object. -/
def ghIssueBlock (p : Json) : Event :=
  let issue := p.getN "issue"
  [("issue_number", issue.getN "number"),
   ("issue_title", issue.getD "title" (.str "")),
   ("issue_url", issue.getD "html_url" (.str ""))]

/-- Fields contributed by a present `comment` object (body truncated at
normalization time). -/
def ghCommentBlock (p : Json) : Event :=
  let comment := p.getN "comment"
  [("comment_body", .str (truncateBody (comment.getStr "body"))),
   ("comment_url", comment.getD "html_url" (.str ""))]

/-- Fields contributed by a present `release` object. -/
def ghReleaseBlock (p : Json) : Event :=
  let rel := p.getN "release"
  [("release_tag", rel.getD "tag_name" (.str "")),
   ("release_name", rel.getD "name" (.str "")),
   ("release_url", rel.getD "html_url" (.str ""))]

/-- Fields contributed by a present `check_suite` object. -/
def ghCheckSuiteBlock (p : Json) : Event :=
  let cs := p.getN "check_suite"
  [("head_branch", cs.getD "head_branch" (.str "")),
   ("head_sha", cs.getD "head_sha" (.str "")),
   ("status", cs.getD "status" (.str "")),
   ("conclusion", cs.getD "conclusion" (.str ""))]

/-- Fields contributed by a present `check_run` object. -/
def ghCheckRunBlock (p : Json) : Event :=
  let cr := p.getN "check_run"
  [("head_branch", cr.getD "head_branch" (.str "")),
   ("head_sha", cr.getD "head_sha" (.str "")),
   ("status", cr.getD "status" (.str "")),
   ("conclusion", cr.getD "conclusion" (.str ""))]

/-- Fields contributed by a present `deployment` object. -/
def ghDeploymentBlock (p : Json) : Event :=
  let dep := p.getN "deployment"
  [("environment", dep.getD "environment" (.str "")),
   ("state", dep.getD "status" (.str "")),
   ("head_branch", dep.getD "ref" (.str "")),
   ("head_sha", if (dep.getN "sha").truthy then .str (strTake (dep.getStr "sha") 7) else .str "")]

/-- Fields contributed by a present `milestone` object. -/
def ghMilestoneBlock (p : Json) : Event :=
  let ms := p.getN "milestone"
  [("milestone_number", ms.getN "number"),
   ("milestone_title", ms.getD "title" (.str "")),
   ("milestone_state", ms.getD "state" (.str ""))]

/-- Fields contributed by a present `label` object. -/
def ghLabelBlock (p : Json) : Event :=
  let lab := p.getN "label"
  [("label_name", lab.getD "name" (.str "")),
   ("label_color", lab.getD "color" (.str ""))]

/-- Fields contributed by a present `member` object. -/
def ghMemberBlock (p : Json) : Event :=
  let member := p.getN "member"
  [("member_name", member.getD "login" (.str "")),
   ("member_url", member.getD "html_url" (.str ""))]

/-- Fields contributed by a present `forkee` object. -/
def ghForkeeBlock (p : Json) : Event :=
  let forkee := p.getN "forkee"
  [("fork_name", forkee.getD "full_name" (.str "")),
   ("fork_url", forkee.getD "html_url" (.str ""))]

/-- Python dict assignment `d[k] = v` on an insertion-ordered dict:
overwrite in place if the key exists, else append. -/
def updEntry (es : Event) (k : String) (v : Json) : Event :=
  if es.any (fun q => q.1 == k) then
    es.map (fun q => if q.1 == k then (q.1, v) else q)
  else es ++ [(k, v)]

/-- Python `result.update({...})`. -/
def dictUpdate (es : Event) (upd : Event) : Event :=
  upd.foldl (fun acc kv => updEntry acc kv.1 kv.2) es

/-- Embeds `GitPayloadParser._parse_generic_github_event(github_event, payload)`,
in the source's shape: base fields, then one `update` per well-known
nested object that is present, in source order. -/
def parseGenericGithubEvent (ev : Option String) (p : Json) : Event :=
  let r0 := ghGenericBase ev p
  let r1 := if (p.lookup "pull_request").isSome then dictUpdate r0 (ghPrBlock p) else r0
  let r2 := if (p.lookup "issue").isSome then dictUpdate r1 (ghIssueBlock p) else r1
  let r3 := if (p.lookup "comment").isSome then dictUpdate r2 (ghCommentBlock p) else r2
  let r4 := if (p.lookup "release").isSome then dictUpdate r3 (ghReleaseBlock p) else r3
  let r5 := if (p.lookup "check_suite").isSome then dictUpdate r4 (ghCheckSuiteBlock p) else r4
  let r6 := if (p.lookup "check_run").isSome then dictUpdate r5 (ghCheckRunBlock p) else r5
  let r7 := if (p.lookup "deployment").isSome then dictUpdate r6 (ghDeploymentBlock p) else r6
  let r8 := if (p.lookup "milestone").isSome then dictUpdate r7 (ghMilestoneBlock p) else r7
  let r9 := if (p.lookup "label").isSome then dictUpdate r8 (ghLabelBlock p) else r8
  let r10 := if (p.lookup "member").isSome then dictUpdate r9 (ghMemberBlock p) else r9
  if (p.lookup "forkee").isSome then dictUpdate r10 (ghForkeeBlock p) else r10

/-- The fixed, ordered registry of well-known nested objects the generic
handler inspects, paired with the fields each contributes. -/
def wellKnownBlocks : List (String × (Json → Event)) :=
  [("pull_request", ghPrBlock), ("issue", ghIssueBlock), ("comment", ghCommentBlock),
   ("release", ghReleaseBlock), ("check_suite", ghCheckSuiteBlock),
   ("check_run", ghCheckRunBlock), ("deployment", ghDeploymentBlock),
   ("milestone", ghMilestoneBlock), ("label", ghLabelBlock),
   ("member", ghMemberBlock), ("forkee", ghForkeeBlock)]

/-- The generic handler as the spec describes it: flatten into the base
fields exactly the blocks of those well-known objects that are present,
in registry order. -/
def flattenPresentBlocks (ev : Option String) (p : Json) : Event :=
  (wellKnownBlocks.filter (fun kb => (p.lookup kb.1).isSome)).foldl
    (fun acc kb => dictUpdate acc (kb.2 p)) (ghGenericBase ev p)

/-- Embeds `GitPayloadParser.parse_github_payload(headers, payload, secret, raw_body)`:
HMAC-SHA1 verification over the raw body (or, without one, over the
canonical re-serialization), then dispatch on the `X-GitHub-Event`
header, falling back to the generic handler. -/
def parse_github_payload (fns : ExtFns) (headers : List (String × String)) (p : Json)
    (secret : String) (raw_body : Option String) : Option Event :=
  let sigHeader := (headersGet headers "x-hub-signature").getD ""
  let ok := match raw_body with
    | some b => verify_signature fns b secret sigHeader "sha1"
    | none => verify_signature fns (fns.dumps p) secret sigHeader "sha1"
  if !ok then none
  else
    let ev := headersGet headers "x-github-event"
    if ev = some "push" then
      if !(p.getN "commits").truthy then none else some (githubPushEvent p)
    else if ev = some "workflow_run" then some (githubWorkflowRunEvent p)
    else if ev = some "pull_request" then some (githubPullRequestEvent p)
    else if ev = some "release" then some (githubReleaseEvent p)
    else if ev = some "create" then some (githubCreateEvent p)
    else if ev = some "delete" then some (githubDeleteEvent p)
    else if ev = some "issues" then some (githubIssuesEvent p)
    else if ev = some "issue_comment" then some (githubIssueCommentEvent p)
    else if ev = some "check_suite" then some (githubCheckSuiteEvent p)
    else if ev = some "check_run" then some (githubCheckRunEvent p)
    else if ev = some "fork" then some (githubForkEvent p)
    else if ev = some "watch" then some (githubWatchEvent p)
    else if ev = some "commit_comment" then some (githubCommitCommentEvent p)
    else if ev = some "pull_request_review" then some (githubPullRequestReviewEvent p)
    else if ev = some "pull_request_review_comment" then some (githubPrReviewCommentEvent p)
    else if ev = some "deployment" then some (githubDeploymentEvent p)
    else if ev = some "status" then some (githubStatusEvent p)
    else if ev = some "repository" then some (githubRepositoryEvent p)
    else if ev = some "member" then some (githubMemberEvent p)
    else if ev = some "milestone" then some (githubMilestoneEvent p)
    else if ev = some "label" then some (githubLabelEvent p)
    else some (parseGenericGithubEvent ev p)

/-- Truthiness of an optional header value (`not headers_lower.get(k)`). -/
def optTruthy : Option String → Bool
  | some s => s != ""
  | none => false

/-- Embeds `GitPayloadParser.parse_gitlab_payload(headers, payload, secret)`:
shared-token check against `X-Gitlab-Token` (note: no HMAC, the body is
not an input to the check), then push-only dispatch. -/
def parse_gitlab_payload (headers : List (String × String)) (p : Json)
    (secret : String) : Option Event :=
  let tok := headersGet headers "x-gitlab-token"
  if secret ≠ "" ∧ tok ≠ some secret then none
  else if secret ≠ "" ∧ !optTruthy tok then none
  else if headersGet headers "x-gitlab-event" ≠ some "Push Hook" then none
  else if !(p.getN "commits").truthy then none
  else
    let latest := (p.getN "commits").lastElem
    some [("platform", .str "GitLab"),
          ("repository_name", (p.getD "project" (.obj [])).getN "name"),
          ("branch", .str ((p.getStr "ref").replace "refs/heads/" "")),
          ("commit_message",
            .str (if (latest.getN "message").truthy then firstLine (latest.getStr "message") else "")),
          ("author_name", (latest.getD "author" (.obj [])).getN "name"),
          ("commit_url", latest.getN "url"),
          ("timestamp", latest.getN "timestamp")]

/-- Embeds `GitPayloadParser.parse_gitea_payload(headers, payload, secret, raw_body)`:
HMAC-SHA256 over the raw body, presented without a prefix in
`X-Gitea-Signature`; push-only dispatch. -/
def parse_gitea_payload (fns : ExtFns) (headers : List (String × String)) (p : Json)
    (secret : String) (raw_body : Option String) : Option Event :=
  let sigHeader := (headersGet headers "x-gitea-signature").getD ""
  let ok := match raw_body with
    | some b => verify_signature fns b secret sigHeader "sha256"
    | none => verify_signature fns (fns.dumps p) secret sigHeader "sha256"
  if !ok then none
  else if headersGet headers "x-gitea-event" ≠ some "push" then none
  else if !(p.getN "commits").truthy then none
  else
    let latest := (p.getN "commits").lastElem
    some [("platform", .str "Gitea"),
          ("repository_name", (p.getD "repository" (.obj [])).getN "name"),
          ("branch", .str ((p.getStr "ref").replace "refs/heads/" "")),
          ("commit_message",
            .str (if (latest.getN "message").truthy then firstLine (latest.getStr "message") else "")),
          ("author_name", (latest.getD "author" (.obj [])).getN "name"),
          ("commit_url", latest.getN "url"),
          ("timestamp", latest.getN "timestamp")]

/-- Embeds `GitPayloadParser.parse_gogs_payload(headers, payload, secret)`:
HMAC-SHA256 computed over `json.dumps(payload, separators=(',', ':'))`
(the parsed payload's canonical re-serialization — this parse method
never receives the raw body); push-only dispatch. -/
def parse_gogs_payload (fns : ExtFns) (headers : List (String × String)) (p : Json)
    (secret : String) : Option Event :=
  let auth :=
    if secret ≠ "" then
      match headersGet headers "x-gogs-signature" with
      | none => false
      | some s =>
        if s = "" then false
        else s == fns.hmacSha256 secret (fns.dumps p)
    else true
  if !auth then none
  else if headersGet headers "x-gogs-event" ≠ some "push" then none
  else if !(p.getN "commits").truthy then none
  else
    let latest := (p.getN "commits").lastElem
    some [("platform", .str "Gogs"),
          ("repository_name", (p.getD "repository" (.obj [])).getN "full_name"),
          ("branch", .str ((p.getStr "ref").replace "refs/heads/" "")),
          ("commit_message",
            .str (if (latest.getN "message").truthy then firstLine (latest.getStr "message") else "")),
          ("author_name", (latest.getD "author" (.obj [])).getN "name"),
          ("commit_url", latest.getN "url"),
          ("timestamp", latest.getN "timestamp")]

/-- Embeds `NetlifyPayloadParser.parse_payload(headers, payload, secret, body)`:
HMAC-SHA256 over the raw body presented in the exact-case header
`X-Webhook-Signature`; only `ready`/`error` deploy states produce an
event. -/
def netlify_parse_payload (fns : ExtFns) (headers : List (String × String)) (p : Json)
    (secret : String) (body : String) : Option Event :=
  let auth :=
    if secret ≠ "" then
      match rawHeaderGet headers "X-Webhook-Signature" with
      | none => false
      | some s =>
        if s = "" then false
        else s == fns.hmacSha256 secret body
    else true
  if !auth then none
  else
    let state := p.getStrD "state" "unknown"
    if state ≠ "ready" ∧ state ≠ "error" then none
    else
      some [("platform", .str "Netlify"),
            ("site_id", p.getD "site_id" (.str "")),
            ("site_name", p.getD "site_name" (.str "")),
            ("state", .str state),
            ("deploy_id", p.getD "deploy_id" (.str "")),
            ("deploy_url", p.getD "deploy_url" (.str "")),
            ("build_id", p.getD "build_id" (.str ""))]

/-- Python `pre in s` checking at position 0, i.e. `s.startswith(pre)`,
modelled on the character list. -/
def strStartsWith (s pre : String) : Bool :=
  pre.data.isPrefixOf s.data

/-- Embeds `GenericPayloadParser.parse_payload(headers, payload, secret, body)`:
`sha256=`-prefixed HMAC-SHA256 over the raw body, read from
`x-hub-signature-256` with `x-signature` as the `or`-fallback; the whole
payload becomes the event's `data`. -/
def generic_parse_payload (fns : ExtFns) (headers : List (String × String)) (p : Json)
    (secret : String) (body : String) : Option Event :=
  let auth :=
    if secret ≠ "" then
      let s1 := rawHeaderGet headers "x-hub-signature-256"
      let sig := if optTruthy s1 then s1 else rawHeaderGet headers "x-signature"
      match sig with
      | none => false
      | some s =>
        if s = "" then false
        else if !strStartsWith s "sha256=" then false
        else s == ("sha256=" ++ fns.hmacSha256 secret body)
    else true
  if !auth then none
  else some [("platform", .str "Generic"), ("data", p)]

/-- Embeds `RSSPayloadParser._verify_webhook_signature(payload_body, secret,
signature_header)`: every branch of the source returns `True` — an empty
secret or missing header passes, and both the match and the mismatch arm
of the digest comparison `return True` (verification is deliberately
advisory). -/
def rss_verify_webhook_signature (fns : ExtFns) (payload_body : String) (secret : String)
    (signature_header : String) : Bool :=
  if secret = "" then true
  else if signature_header = "" then true
  else if fns.hmacSha256 secret payload_body == signature_header.replace "sha256=" "" then true
  else true

/-- One normalized RSS webhook event, from one article object; `now` is
the explicit wall clock for `datetime.now().isoformat()`. -/
def rssArticleEvent (a : Json) (total : Int) (now : String) : Event :=
  [("platform", .str "RSS"),
   ("feed_name", a.getD "feed_title" (.str "未知订阅源")),
   ("article_title", a.getD "title" (.str "无标题")),
   ("article_url", a.getD "link" (.str "")),
   ("author_name", a.getD "author" (.str "未知作者")),
   ("description", a.getD "description" (.str "")),
   ("published_time", a.getD "published" (.str "")),
   ("total_articles", .num total),
   ("timestamp", .str now)]

/-- Embeds `RSSPayloadParser.parse_rss_webhook(headers, payload, secret, raw_body)`:
the source reads `X-RSS-Signature`, calls `_verify_webhook_signature` and
discards the result (the call has no effect on the outcome, so it leaves
no trace in this pure model); the first article of a non-empty `articles`
list, or the single `article`, becomes the event. Shapes on which the
source raises inside its `try` (non-dict articles) are `none`. -/
def parse_rss_webhook (headers : List (String × String)) (p : Json) (secret : String)
    (raw_body : Option String) (now : String) : Option Event :=
  match p.lookup "articles" with
  | some (.arr (first :: rest)) =>
    match first with
    | .obj _ => some (rssArticleEvent first (rest.length + 1) now)
    | _ => none
  | some _ => none
  | none =>
    match p.lookup "article" with
    | some (a@(.obj _)) => some (rssArticleEvent a 1 now)
    | some _ => none
    | none => none

/-- Outcome of the `/webhook/git` route as the external caller sees it:
the quiet-success acknowledgment, or an HTTP rejection with its status
and detail string. -/
inductive RouteResult where
  | ok (msg : String)
  | reject (status : Nat) (detail : String)
deriving DecidableEq

/-- Decision logic of `handle_git_webhook` in `src/main.py`: empty body
and JSON-decode failures are 400s with their own details
(`payloadParse` is the outcome of the route's body-decoding step);
platform dispatch on the event headers; a `None` from the platform's
parse function — whether from signature failure or from a recognized but
empty event — becomes one shared 400 rejection. -/
def handle_git_webhook (fns : ExtFns) (headers : List (String × String)) (body : String)
    (payloadParse : Option Json)
    (ghSecret glSecret gtSecret ggSecret : String) : RouteResult :=
  if body = "" then .reject 400 "请求体为空。"
  else
    match payloadParse with
    | none => .reject 400 "无法解析请求体数据。"
    | some p =>
      if !p.truthy then .reject 400 "解析后的payload为空。"
      else if (headersGet headers "x-github-event").isSome then
        match parse_github_payload fns headers p ghSecret (some body) with
        | none => .reject 400 "Git WebHook负载解析失败或签名验证失败。"
        | some _ => .ok "Git WebHook接收成功，通知已调度。"
      else if (headersGet headers "x-gitlab-event").isSome then
        match parse_gitlab_payload headers p glSecret with
        | none => .reject 400 "Git WebHook负载解析失败或签名验证失败。"
        | some _ => .ok "Git WebHook接收成功，通知已调度。"
      else if (headersGet headers "x-gitea-event").isSome then
        match parse_gitea_payload fns headers p gtSecret (some body) with
        | none => .reject 400 "Git WebHook负载解析失败或签名验证失败。"
        | some _ => .ok "Git WebHook接收成功，通知已调度。"
      else if (headersGet headers "x-gogs-event").isSome then
        match parse_gogs_payload fns headers p ggSecret with
        | none => .reject 400 "Git WebHook负载解析失败或签名验证失败。"
        | some _ => .ok "Git WebHook接收成功，通知已调度。"
      else .reject 400 "无法识别的Git WebHook平台。"

/-- Python `message.split('\n')` on a character list: always non-empty,
and no element contains a newline. -/
def splitNl : List Char → List (List Char)
  | [] => [[]]
  | c :: cs =>
    if c = '\n' then [] :: splitNl cs
    else
      match splitNl cs with
      | l :: ls => (c :: l) :: ls
      | [] => [[c]]

/-- The `while len(line) > max_length` hard-split loop of
`send_telegram_message`: full-width chunks plus the leftover. The source
runs it with `max_length = 4000`; the `0 < max` guard only rules out the
`max = 0` case, on which the Python loop would not terminate. -/
def hardSplit (max : Nat) (line : List Char) : List (List Char) × List Char :=
  if h : 0 < max ∧ max < line.length then
    let r := hardSplit max (line.drop max)
    (line.take max :: r.1, r.2)
  else ([], line)
termination_by line.length
decreasing_by
  simp only [List.length_drop]
  omega

/-- Accumulator of the chunking loop: emitted `parts` and the `current`
part under construction. -/
structure SplitSt where
  parts : List (List Char)
  current : List Char

/-- One iteration of `for line in lines` in `send_telegram_message`'s
long-message branch. -/
def splitStep (max : Nat) (st : SplitSt) (line : List Char) : SplitSt :=
  if st.current.length + line.length + 1 > max then
    let parts := if st.current ≠ [] then st.parts ++ [st.current] else st.parts
    let hs := hardSplit max line
    { parts := parts ++ hs.1, current := hs.2 }
  else if st.current ≠ [] then { st with current := st.current ++ '\n' :: line }
  else { st with current := line }

/-- The long-message chunking of `send_telegram_message`: split on
newlines, grow `current` while it fits, flush at boundaries, hard-split
oversized lines, and append a non-empty trailing `current`. -/
def splitMessage (max : Nat) (msg : List Char) : List (List Char) :=
  let fin := (splitNl msg).foldl (splitStep max) ⟨[], []⟩
  if fin.current ≠ [] then fin.parts ++ [fin.current] else fin.parts

/-- The chunks `send_telegram_message` sends, in order: the message
itself when within `max_length = 4000`, else the split. -/
def telegramChunks (msg : List Char) : List (List Char) :=
  if msg.length ≤ 4000 then [msg] else splitMessage 4000 msg

/-- Embeds `RSSMonitor.get_article_id(article)`: MD5 of the GUID if truthy, else
of the link, else of title concatenated with published time. -/
def get_article_id (md5Hex : String → String) (a : Json) : String :=
  if (a.getN "guid").truthy then md5Hex (a.getStr "guid")
  else if (a.getN "link").truthy then md5Hex (a.getStr "link")
  else md5Hex (a.getStr "title" ++ a.getStr "published")

/-- One iteration of the diffing loop in `RSSMonitor.check_feed`: an
unseen identity is appended to the new-article list and added to the
seen set (the Python `set` is modelled as a duplicate-free list, so
adding is an append guarded by membership). -/
def diffStep (md5Hex : String → String) (st : List Json × List String) (a : Json) :
    List Json × List String :=
  let id := get_article_id md5Hex a
  if id ∈ st.2 then st else (st.1 ++ [a], st.2 ++ [id])

/-- The diffing loop of `RSSMonitor.check_feed` over one fetched article
list, returning the new articles (each of which is emitted as one
notification) and the updated seen set. -/
def checkFeedDiff (md5Hex : String → String) (seen : List String) (articles : List Json) :
    List Json × List String :=
  articles.foldl (diffStep md5Hex) ([], seen)

/-! Concrete inputs used by witnesses and counterexamples. -/

/-- A GitHub/Gitea/Gogs/GitLab-shaped push payload with one commit whose
message is `m1`. -/
def pushPayload1 : Json :=
  .obj [("repository", .obj [("full_name", .str "demo/repo"), ("name", .str "repo")]),
        ("project", .obj [("name", .str "repo")]),
        ("ref", .str "refs/heads/main"),
        ("commits", .arr [.obj [("message", .str "m1"),
                                ("author", .obj [("name", .str "alice")]),
                                ("url", .str "u"), ("timestamp", .str "t")]]),
        ("head_commit", .obj [("message", .str "m1"),
                              ("author", .obj [("name", .str "alice")]),
                              ("url", .str "u"), ("timestamp", .str "t")])]

/-- The same payload with one character of the commit message altered
(`m1` → `m2`): the parse of a raw body differing in that one byte. -/
def pushPayload2 : Json :=
  .obj [("repository", .obj [("full_name", .str "demo/repo"), ("name", .str "repo")]),
        ("project", .obj [("name", .str "repo")]),
        ("ref", .str "refs/heads/main"),
        ("commits", .arr [.obj [("message", .str "m2"),
                                ("author", .obj [("name", .str "alice")]),
                                ("url", .str "u"), ("timestamp", .str "t")]]),
        ("head_commit", .obj [("message", .str "m2"),
                              ("author", .obj [("name", .str "alice")]),
                              ("url", .str "u"), ("timestamp", .str "t")])]

/-- A recognized push payload whose commits list is empty. -/
def emptyPushPayload : Json :=
  .obj [("repository", .obj [("full_name", .str "demo/repo")]),
        ("ref", .str "refs/heads/main"),
        ("commits", .arr [])]

/-- A Netlify deploy payload in the `ready` state. -/
def netlifyPayload1 : Json :=
  .obj [("site_id", .str "sid"), ("site_name", .str "mysite"), ("state", .str "ready"),
        ("deploy_id", .str "d1"), ("deploy_url", .str "du"), ("build_id", .str "b1")]

/-- A single-article RSS webhook payload. -/
def rssPayload1 : Json :=
  .obj [("article", .obj [("feed_title", .str "Feed"), ("title", .str "Post"),
                          ("link", .str "L"), ("author", .str "A"),
                          ("description", .str "D"), ("published", .str "P")])]

/-- A concrete, executable instantiation of the external primitives, for
witnesses: injective-on-small-inputs tagged concatenations and a
serializer that extracts the first commit message (enough to distinguish
the concrete payloads used below). -/
def fns0 : ExtFns :=
  { hmacSha1 := fun s b => "H1:" ++ s ++ ":" ++ b,
    hmacSha256 := fun s b => "H2:" ++ s ++ ":" ++ b,
    md5Hex := fun s => "M:" ++ s,
    dumps := fun j =>
      match (j.getN "commits").asArr with
      | x :: _ => x.getStr "message"
      | [] => "" }

/-- The event kinds `parse_github_payload` maps with a dedicated branch;
anything else reaches the generic fallback. -/
def mappedGithubEvents : List String :=
  ["push", "workflow_run", "pull_request", "release", "create", "delete", "issues",
   "issue_comment", "check_suite", "check_run", "fork", "watch", "commit_comment",
   "pull_request_review", "pull_request_review_comment", "deployment", "status",
   "repository", "member", "milestone", "label"]

/-! String helper lemmas. -/

theorem strLenData (s : String) : s.length = s.data.length := rfl

theorem prefixed_ne_empty (a x : String) (ha : a.length ≠ 0) : (a ++ x) ≠ "" := by
  intro h
  have h2 := congrArg String.length h
  rw [String.length_append] at h2
  have h4 : ("" : String).length = 0 := rfl
  omega

theorem prefixed_inj (a x y : String) (h : a ++ x = a ++ y) : x = y := by
  have h2 := congrArg String.data h
  rw [String.data_append, String.data_append] at h2
  exact String.ext (List.append_cancel_left h2)

theorem strStartsWith_append (a x : String) : strStartsWith (a ++ x) a = true := by
  rw [strStartsWith, String.data_append]
  exact List.isPrefixOf_iff_prefix.mpr (List.prefix_append a.data x.data)

/-! Lemmas about the Python-dict update used by the generic GitHub
handler. -/

theorem lookupKey_overwrite_ne (es : Event) (k : String) (v : Json) (key : String)
    (h : k ≠ key) :
    Json.lookupKey (es.map (fun q => if q.1 == k then (q.1, v) else q)) key
      = Json.lookupKey es key := by
  induction es with
  | nil => rfl
  | cons kv rest ih =>
    simp only [List.map]
    by_cases hk : kv.1 = k
    · rw [show (if kv.1 == k then (kv.1, v) else kv) = (kv.1, v) from by simp [hk]]
      have hne : ¬ (kv.1 == key) = true := by simp [hk]; exact h
      simp only [Json.lookupKey]
      rw [if_neg hne, if_neg hne]
      exact ih
    · rw [show (if kv.1 == k then (kv.1, v) else kv) = kv from by simp [hk]]
      simp only [Json.lookupKey]
      by_cases hkey : kv.1 = key
      · rw [if_pos (by simpa using hkey), if_pos (by simpa using hkey)]
      · rw [if_neg (by simpa using hkey), if_neg (by simpa using hkey)]
        exact ih

theorem lookupKey_append_ne (es : Event) (k : String) (v : Json) (key : String)
    (h : k ≠ key) :
    Json.lookupKey (es ++ [(k, v)]) key = Json.lookupKey es key := by
  induction es with
  | nil => simp [Json.lookupKey, h]
  | cons kv rest ih =>
    simp only [List.cons_append, Json.lookupKey]
    by_cases hkey : kv.1 = key
    · rw [if_pos (by simpa using hkey), if_pos (by simpa using hkey)]
    · rw [if_neg (by simpa using hkey), if_neg (by simpa using hkey)]
      exact ih

theorem lookupKey_updEntry_ne (es : Event) (k : String) (v : Json) (key : String)
    (h : k ≠ key) : Json.lookupKey (updEntry es k v) key = Json.lookupKey es key := by
  rw [updEntry]
  split
  · exact lookupKey_overwrite_ne es k v key h
  · exact lookupKey_append_ne es k v key h

theorem lookupKey_none_of_not_any (es : Event) (k : String)
    (h : ¬ (es.any fun q => q.1 == k) = true) : Json.lookupKey es k = none := by
  induction es with
  | nil => rfl
  | cons kv rest ih =>
    simp only [List.any_cons, Bool.or_eq_true, not_or] at h
    simp only [Json.lookupKey]
    rw [if_neg h.1]
    exact ih h.2

theorem lookupKey_overwrite_self (es : Event) (k : String) (v : Json)
    (h : (es.any fun q => q.1 == k) = true) :
    Json.lookupKey (es.map (fun q => if q.1 == k then (q.1, v) else q)) k = some v := by
  induction es with
  | nil => simp at h
  | cons kv rest ih =>
    simp only [List.map]
    by_cases hk : kv.1 = k
    · rw [show (if kv.1 == k then (kv.1, v) else kv) = (kv.1, v) from by simp [hk]]
      simp only [Json.lookupKey]
      rw [if_pos (by simpa using hk)]
    · rw [show (if kv.1 == k then (kv.1, v) else kv) = kv from by simp [hk]]
      simp only [Json.lookupKey]
      rw [if_neg (by simpa using hk)]
      apply ih
      simp only [List.any_cons, Bool.or_eq_true] at h
      rcases h with h | h
      · exact absurd (by simpa using h) hk
      · exact h

theorem lookupKey_append_self (es : Event) (k : String) (v : Json)
    (h : Json.lookupKey es k = none) :
    Json.lookupKey (es ++ [(k, v)]) k = some v := by
  induction es with
  | nil => simp [Json.lookupKey]
  | cons kv rest ih =>
    simp only [Json.lookupKey, List.cons_append] at h ⊢
    by_cases hkey : kv.1 = k
    · rw [if_pos (by simpa using hkey)] at h
      exact absurd h (by simp)
    · rw [if_neg (by simpa using hkey)] at h ⊢
      exact ih h

theorem lookupKey_updEntry_self (es : Event) (k : String) (v : Json) :
    Json.lookupKey (updEntry es k v) k = some v := by
  rw [updEntry]
  split
  case isTrue h => exact lookupKey_overwrite_self es k v h
  case isFalse h => exact lookupKey_append_self es k v (lookupKey_none_of_not_any es k h)

theorem lookupKey_dictUpdate_nmem (es : Event) (upd : Event) (key : String)
    (h : key ∉ upd.map Prod.fst) :
    Json.lookupKey (dictUpdate es upd) key = Json.lookupKey es key := by
  induction upd generalizing es with
  | nil => rfl
  | cons kv rest ih =>
    simp only [dictUpdate, List.foldl]
    have h1 : kv.1 ≠ key := by intro hk; exact h (by simp [hk])
    have h2 : key ∉ rest.map Prod.fst := by intro hk; exact h (by simp [hk])
    rw [show rest.foldl (fun acc q => updEntry acc q.1 q.2) (updEntry es kv.1 kv.2)
          = dictUpdate (updEntry es kv.1 kv.2) rest from rfl]
    rw [ih _ h2, lookupKey_updEntry_ne _ _ _ _ h1]

/-! The generic GitHub handler as a fold over the block registry. -/

theorem parseGeneric_eq_foldl (ev : Option String) (p : Json) :
    parseGenericGithubEvent ev p
      = wellKnownBlocks.foldl
          (fun acc kb => if (p.lookup kb.1).isSome then dictUpdate acc (kb.2 p) else acc)
          (ghGenericBase ev p) := rfl

theorem foldl_filter_ite {α β : Type} (q : α → Bool) (f : β → α → β) (b : β) (l : List α) :
    (l.filter q).foldl f b
      = l.foldl (fun acc x => if q x then f acc x else acc) b := by
  induction l generalizing b with
  | nil => rfl
  | cons x xs ih =>
    by_cases h : q x <;> simp [List.filter, h, ih]

theorem parseGeneric_eq_flatten (ev : Option String) (p : Json) :
    parseGenericGithubEvent ev p = flattenPresentBlocks ev p := by
  rw [parseGeneric_eq_foldl, flattenPresentBlocks, foldl_filter_ite]

theorem lookupKey_blockFold_nmem (p : Json) (key : String) (base : Event)
    (bs : List (String × (Json → Event)))
    (h : ∀ kb ∈ bs, key ∉ (kb.2 p).map Prod.fst) :
    Json.lookupKey
        (bs.foldl (fun acc kb => if (p.lookup kb.1).isSome then dictUpdate acc (kb.2 p) else acc)
          base) key
      = Json.lookupKey base key := by
  induction bs generalizing base with
  | nil => rfl
  | cons kb rest ih =>
    simp only [List.foldl]
    rw [ih _ (fun x hx => h x (by simp [hx]))]
    split
    · exact lookupKey_dictUpdate_nmem _ _ _ (h kb (by simp))
    · rfl

theorem blockFold_cons (p : Json) (base : Event) (kb : String × (Json → Event))
    (bs : List (String × (Json → Event))) :
    (kb :: bs).foldl
        (fun acc q => if (p.lookup q.1).isSome then dictUpdate acc (q.2 p) else acc) base
      = bs.foldl (fun acc q => if (p.lookup q.1).isSome then dictUpdate acc (q.2 p) else acc)
          (if (p.lookup kb.1).isSome then dictUpdate base (kb.2 p) else base) := rfl

theorem generic_event_type (ev : Option String) (p : Json) :
    eventField (parseGenericGithubEvent ev p) "event_type" = some (jOptStr ev) := by
  rw [eventField, parseGeneric_eq_foldl, lookupKey_blockFold_nmem]
  · rfl
  · intro kb hkb
    simp only [wellKnownBlocks, List.mem_cons, List.not_mem_nil, or_false] at hkb
    rcases hkb with rfl|rfl|rfl|rfl|rfl|rfl|rfl|rfl|rfl|rfl|rfl <;>
      simp [ghPrBlock, ghIssueBlock, ghCommentBlock, ghReleaseBlock, ghCheckSuiteBlock,
            ghCheckRunBlock, ghDeploymentBlock, ghMilestoneBlock, ghLabelBlock,
            ghMemberBlock, ghForkeeBlock]

theorem generic_comment_body (ev : Option String) (p : Json)
    (hc : (p.lookup "comment").isSome = true) :
    eventField (parseGenericGithubEvent ev p) "comment_body"
      = some (.str (truncateBody ((p.getN "comment").getStr "body"))) := by
  rw [eventField, parseGeneric_eq_foldl]
  rw [show wellKnownBlocks
        = [("pull_request", ghPrBlock), ("issue", ghIssueBlock)]
          ++ ("comment", ghCommentBlock)
            :: [("release", ghReleaseBlock), ("check_suite", ghCheckSuiteBlock),
                ("check_run", ghCheckRunBlock), ("deployment", ghDeploymentBlock),
                ("milestone", ghMilestoneBlock), ("label", ghLabelBlock),
                ("member", ghMemberBlock), ("forkee", ghForkeeBlock)] from rfl]
  rw [List.foldl_append, blockFold_cons, if_pos hc]
  rw [lookupKey_blockFold_nmem]
  · simp only [ghCommentBlock, dictUpdate, List.foldl]
    rw [lookupKey_updEntry_ne _ _ _ _ (by decide), lookupKey_updEntry_self]
  · intro kb hkb
    simp only [List.mem_cons, List.not_mem_nil, or_false] at hkb
    rcases hkb with rfl|rfl|rfl|rfl|rfl|rfl|rfl|rfl <;>
      simp [ghReleaseBlock, ghCheckSuiteBlock, ghCheckRunBlock, ghDeploymentBlock,
            ghMilestoneBlock, ghLabelBlock, ghMemberBlock, ghForkeeBlock]

theorem parse_unmapped_is_generic (fns : ExtFns) (headers : List (String × String))
    (p : Json) (b : String) (e : String)
    (hev : headersGet headers "x-github-event" = some e)
    (hne : e ∉ mappedGithubEvents) :
    parse_github_payload fns headers p "" (some b)
      = some (parseGenericGithubEvent (some e) p) := by
  simp only [mappedGithubEvents, List.mem_cons, List.not_mem_nil, or_false, not_or] at hne
  obtain ⟨n1, n2, n3, n4, n5, n6, n7, n8, n9, n10, n11, n12, n13, n14, n15, n16, n17,
    n18, n19, n20, n21⟩ := hne
  simp only [parse_github_payload, hev, verify_signature, if_pos rfl, Bool.not_true,
    Bool.false_eq_true, if_false]
  simp [n1, n2, n3, n4, n5, n6, n7, n8, n9, n10, n11, n12, n13, n14, n15, n16, n17,
    n18, n19, n20, n21]

/-! Lemmas about the Telegram message chunking. -/

/-- Newline-free projection of a character list: the content the chunker
must preserve. -/
def filterNl (l : List Char) : List Char := l.filter (fun c => c != '\n')

theorem splitNl_ne_nil (l : List Char) : splitNl l ≠ [] := by
  cases l with
  | nil => simp [splitNl]
  | cons c cs =>
    rw [splitNl]
    split
    · simp
    · split <;> simp

theorem noNl_mem_splitNl (msg : List Char) : ∀ l ∈ splitNl msg, '\n' ∉ l := by
  induction msg with
  | nil => intro l hl; simp [splitNl] at hl; simp [hl]
  | cons c cs ih =>
    intro l hl
    rw [splitNl] at hl
    by_cases hc : c = '\n'
    · rw [if_pos hc] at hl
      rcases List.mem_cons.mp hl with rfl | h
      · simp
      · exact ih l h
    · rw [if_neg hc] at hl
      cases hsp : splitNl cs with
      | nil => exact absurd hsp (splitNl_ne_nil cs)
      | cons hd tl =>
        rw [hsp] at hl
        rcases List.mem_cons.mp hl with rfl | h
        · intro hmem
          rcases List.mem_cons.mp hmem with h1 | h1
          · exact hc h1.symm
          · exact ih hd (by rw [hsp]; exact List.mem_cons_self _ _) h1
        · exact ih l (by rw [hsp]; exact List.mem_cons_of_mem _ h)

theorem flatten_splitNl (msg : List Char) : (splitNl msg).flatten = filterNl msg := by
  induction msg with
  | nil => simp [splitNl, filterNl]
  | cons c cs ih =>
    rw [splitNl]
    by_cases hc : c = '\n'
    · rw [if_pos hc]
      simp only [List.flatten_cons, List.nil_append, ih, filterNl, List.filter]
      rw [hc]
      simp
    · rw [if_neg hc]
      cases hsp : splitNl cs with
      | nil => exact absurd hsp (splitNl_ne_nil cs)
      | cons hd tl =>
        rw [hsp] at ih
        simp only [List.flatten_cons, filterNl, List.filter] at ih ⊢
        rw [show (c != '\n') = true from by simpa using hc]
        simp only [List.cons_append]
        rw [← ih]

theorem filterNl_append (a b : List Char) :
    filterNl (a ++ b) = filterNl a ++ filterNl b := by
  simp [filterNl]

theorem filterNl_nil : filterNl [] = [] := rfl

theorem filterNl_cons_nl (l : List Char) : filterNl ('\n' :: l) = filterNl l := by
  simp [filterNl, List.filter]

theorem filterNl_noNl (l : List Char) (h : '\n' ∉ l) : filterNl l = l := by
  rw [filterNl, List.filter_eq_self]
  intro c hc
  simp only [bne_iff_ne, ne_eq]
  intro hcn
  exact h (hcn ▸ hc)

theorem hardSplit_flatten (m : Nat) (line : List Char) :
    (hardSplit m line).1.flatten ++ (hardSplit m line).2 = line := by
  induction line using hardSplit.induct m with
  | case1 line h ih =>
    rw [hardSplit, dif_pos h]
    simp only [List.flatten_cons, List.append_assoc]
    rw [ih]
    exact List.take_append_drop m line
  | case2 line h =>
    rw [hardSplit, dif_neg h]
    simp

theorem hardSplit_chunk_le (m : Nat) (line : List Char) :
    ∀ c ∈ (hardSplit m line).1, c.length ≤ m := by
  induction line using hardSplit.induct m with
  | case1 line h ih =>
    intro c hc
    rw [hardSplit, dif_pos h] at hc
    rcases List.mem_cons.mp hc with rfl | hc
    · simp [List.length_take]
    · exact ih c hc
  | case2 line h =>
    intro c hc
    rw [hardSplit, dif_neg h] at hc
    simp at hc

theorem hardSplit_rest_le (m : Nat) (hm : 0 < m) (line : List Char) :
    (hardSplit m line).2.length ≤ m := by
  induction line using hardSplit.induct m with
  | case1 line h ih =>
    rw [hardSplit, dif_pos h]
    exact ih
  | case2 line h =>
    rw [hardSplit, dif_neg h]
    simp only [not_and, not_lt] at h
    exact h hm

theorem splitStep_bound (m : Nat) (hm : 0 < m) (st : SplitSt) (line : List Char)
    (hparts : ∀ c ∈ st.parts, c.length ≤ m) (hcur : st.current.length ≤ m) :
    (∀ c ∈ (splitStep m st line).parts, c.length ≤ m)
      ∧ (splitStep m st line).current.length ≤ m := by
  rw [splitStep]
  split
  case isTrue h =>
    refine ⟨?_, hardSplit_rest_le m hm line⟩
    intro c hc
    simp only [List.mem_append] at hc
    rcases hc with hc | hc
    · split at hc
      · rcases List.mem_append.mp hc with hc | hc
        · exact hparts c hc
        · simp at hc
          subst hc
          exact hcur
      · exact hparts c hc
    · exact hardSplit_chunk_le m line c hc
  case isFalse h =>
    simp only [not_lt] at h
    split
    case isTrue h2 =>
      refine ⟨hparts, ?_⟩
      simp only [List.length_append, List.length_cons]
      omega
    case isFalse h2 =>
      refine ⟨hparts, ?_⟩
      simp only [not_not] at h2
      rw [h2] at h
      simp only [List.length_nil] at h ⊢
      omega

theorem splitFold_bound (m : Nat) (hm : 0 < m) (lines : List (List Char)) (st : SplitSt)
    (hparts : ∀ c ∈ st.parts, c.length ≤ m) (hcur : st.current.length ≤ m) :
    (∀ c ∈ (lines.foldl (splitStep m) st).parts, c.length ≤ m)
      ∧ (lines.foldl (splitStep m) st).current.length ≤ m := by
  induction lines generalizing st with
  | nil => exact ⟨hparts, hcur⟩
  | cons line rest ih =>
    simp only [List.foldl]
    have h := splitStep_bound m hm st line hparts hcur
    exact ih _ h.1 h.2

theorem splitMessage_chunk_le (m : Nat) (hm : 0 < m) (msg : List Char) :
    ∀ c ∈ splitMessage m msg, c.length ≤ m := by
  intro c hc
  rw [splitMessage] at hc
  have h := splitFold_bound m hm (splitNl msg) ⟨[], []⟩ (by simp) (by simp)
  split at hc
  · rcases List.mem_append.mp hc with hc | hc
    · exact h.1 c hc
    · simp at hc
      subst hc
      exact h.2
  · exact h.1 c hc

theorem splitStep_content (m : Nat) (st : SplitSt) (line : List Char) (h : '\n' ∉ line) :
    filterNl ((splitStep m st line).parts.flatten ++ (splitStep m st line).current)
      = filterNl (st.parts.flatten ++ st.current) ++ line := by
  rw [splitStep]
  split
  case isTrue hgt =>
    simp only
    rw [show ((if st.current ≠ [] then st.parts ++ [st.current] else st.parts)
          ++ (hardSplit m line).1).flatten
        = (if st.current ≠ [] then st.parts ++ [st.current] else st.parts).flatten
          ++ (hardSplit m line).1.flatten from by simp]
    rw [List.append_assoc, hardSplit_flatten]
    split
    case isTrue hc =>
      simp [filterNl_append, filterNl_noNl line h]
    case isFalse hc =>
      simp only [not_not] at hc
      rw [hc]
      simp [filterNl_append, filterNl_noNl line h]
  case isFalse hgt =>
    split
    case isTrue hc =>
      simp only
      simp [filterNl_append, filterNl_cons_nl, filterNl_noNl line h]
    case isFalse hc =>
      simp only [not_not] at hc
      simp only [hc]
      simp [filterNl_append, filterNl_noNl line h]

theorem splitFold_content (m : Nat) (lines : List (List Char)) (st : SplitSt)
    (h : ∀ l ∈ lines, '\n' ∉ l) :
    filterNl ((lines.foldl (splitStep m) st).parts.flatten
        ++ (lines.foldl (splitStep m) st).current)
      = filterNl (st.parts.flatten ++ st.current) ++ lines.flatten := by
  induction lines generalizing st with
  | nil => simp
  | cons line rest ih =>
    simp only [List.foldl, List.flatten_cons]
    rw [ih _ (fun l hl => h l (List.mem_cons_of_mem _ hl)),
        splitStep_content m st line (h line (List.mem_cons_self _ _)), List.append_assoc]

theorem splitMessage_content (m : Nat) (msg : List Char) :
    filterNl (splitMessage m msg).flatten = filterNl msg := by
  rw [splitMessage]
  have h := splitFold_content m (splitNl msg) ⟨[], []⟩ (noNl_mem_splitNl msg)
  simp only [List.flatten_nil, List.append_nil, List.nil_append, filterNl_nil] at h
  rw [flatten_splitNl] at h
  split
  case isTrue hc =>
    rw [List.flatten_append]
    simp only [List.flatten_cons, List.flatten_nil, List.append_nil]
    rw [filterNl_append, ← filterNl_append, h]
  case isFalse hc =>
    simp only [not_not] at hc
    rw [hc] at h
    simpa using h

theorem telegramChunks_le (msg : List Char) : ∀ c ∈ telegramChunks msg, c.length ≤ 4000 := by
  intro c hc
  rw [telegramChunks] at hc
  split at hc
  case isTrue h =>
    simp at hc
    subst hc
    exact h
  case isFalse h =>
    exact splitMessage_chunk_le 4000 (by omega) msg c hc

theorem telegramChunks_content (msg : List Char) :
    filterNl (telegramChunks msg).flatten = filterNl msg := by
  rw [telegramChunks]
  split
  · simp
  · exact splitMessage_content 4000 msg

/-- Interleaving chunks with per-boundary separator strings: the
re-insertion of line breaks the claim speaks of (each separator is either
nothing or one newline). -/
def withSeps : List (List Char) → List (List Char) → List Char
  | [], _ => []
  | [c], _ => c
  | c :: cs, s :: ss => c ++ s ++ withSeps cs ss
  | c :: c2 :: cs, [] => c ++ withSeps (c2 :: cs) []

/-- The chunk list reproduces the original text exactly, for some choice
of re-inserted line breaks at the chunk boundaries. -/
def reconstructs (chunks : List (List Char)) (orig : List Char) : Prop :=
  ∃ seps : List (List Char),
    (∀ s ∈ seps, s = [] ∨ s = ['\n']) ∧ withSeps chunks seps = orig

/-- A 4001-character display text: one leading newline then 4000 `a`s. -/
def exMessage : List Char := '\n' :: List.replicate 4000 'a'

theorem splitNl_noNl (l : List Char) (h : '\n' ∉ l) : splitNl l = [l] := by
  induction l with
  | nil => rfl
  | cons c cs ih =>
    rw [splitNl]
    have hc : c ≠ '\n' := fun hh => h (hh ▸ List.mem_cons_self _ _)
    rw [if_neg hc, ih (fun hm => h (List.mem_cons_of_mem _ hm))]

theorem nl_not_mem_repl : '\n' ∉ List.replicate 4000 'a' := by
  intro hm
  have := List.eq_of_mem_replicate hm
  exact absurd this (by decide)

theorem repl_ne_nil : List.replicate 4000 'a' ≠ ([] : List Char) := by
  intro h
  have := congrArg List.length h
  rw [List.length_replicate] at this
  simp at this

theorem exMessage_chunks : telegramChunks exMessage = [List.replicate 4000 'a'] := by
  have hlen : exMessage.length = 4001 := by
    rw [exMessage, List.length_cons, List.length_replicate]
  rw [telegramChunks, if_neg (by omega)]
  have hsp : splitNl exMessage = [[], List.replicate 4000 'a'] := by
    rw [exMessage, splitNl, if_pos rfl, splitNl_noNl _ nl_not_mem_repl]
  have hstep1 : splitStep 4000 ⟨[], []⟩ [] = ⟨[], []⟩ := by
    rw [splitStep]
    simp
  have hstep2 : splitStep 4000 ⟨[], []⟩ (List.replicate 4000 'a')
      = ⟨[], List.replicate 4000 'a'⟩ := by
    rw [splitStep]
    rw [if_pos (by rw [List.length_replicate]; simp)]
    rw [hardSplit, dif_neg (by rw [List.length_replicate]; omega)]
    rfl
  simp only [splitMessage, hsp, List.foldl_cons, List.foldl_nil, hstep1, hstep2]
  rw [if_pos repl_ne_nil]
  rfl

/-! Claim theorems. -/

theorem route_github_parse_none (fns : ExtFns) (headers : List (String × String))
    (body : String) (p : Json) (g1 g2 g3 g4 : String)
    (hb : ¬ body = "") (hp : p.truthy = true)
    (hev : (headersGet headers "x-github-event").isSome = true)
    (hparse : parse_github_payload fns headers p g1 (some body) = none) :
    handle_git_webhook fns headers body (some p) g1 g2 g3 g4
      = .reject 400 "Git WebHook负载解析失败或签名验证失败。" := by
  simp only [handle_git_webhook, hp, hev]
  rw [if_neg hb]
  simp [hparse]

/-- C1 (corrected): as the claim states it — an empty push surfaced as a
quiet success, distinguishable from `Unauthorized` — the claim is false:
the route maps the parser's `None` for a commit-less push to the same
400 rejection, with the same detail string, that a signature failure
produces. -/
theorem c1_counterexample :
    handle_git_webhook fns0 [("x-github-event", "push")] "body" (some emptyPushPayload)
        "" "" "" "" = .reject 400 "Git WebHook负载解析失败或签名验证失败。"
    ∧ handle_git_webhook fns0 [("x-github-event", "push"), ("x-hub-signature", "bad")]
        "body" (some pushPayload1) "k" "" "" ""
        = .reject 400 "Git WebHook负载解析失败或签名验证失败。" := ⟨rfl, rfl⟩

/-- C1 (amended): a recognized push whose commits list is empty produces
no event and no notification (the parse function returns `None`), but at
the routing boundary it is surfaced as the same 400 rejection — with the
identical detail string — as a signature failure, for every choice of
the HMAC primitives; only `ParseError` (an undecodable body) carries a
distinct detail. -/
theorem c1_noevent_routing (fns : ExtFns) (p : Json)
    (hp : p.truthy = true) (hc : (p.getN "commits").truthy = false) :
    handle_git_webhook fns [("x-github-event", "push")] "body" (some p) "" "" "" ""
      = .reject 400 "Git WebHook负载解析失败或签名验证失败。"
    ∧ handle_git_webhook fns [("x-github-event", "push"), ("x-hub-signature", "bad")] "body"
        (some pushPayload1) "k" "" "" ""
      = .reject 400 "Git WebHook负载解析失败或签名验证失败。"
    ∧ handle_git_webhook fns [("x-github-event", "push")] "body" none "" "" "" ""
      = .reject 400 "无法解析请求体数据。"
    ∧ ("无法解析请求体数据。" : String) ≠ "Git WebHook负载解析失败或签名验证失败。" := by
  refine ⟨?_, ?_, rfl, by decide⟩
  · have hparse : parse_github_payload fns [("x-github-event", "push")] p "" (some "body")
        = none := by
      have e2 : headersGet [("x-github-event", "push")] "x-github-event" = some "push" := rfl
      simp only [parse_github_payload, e2, verify_signature, if_pos rfl]
      simp [hc]
    exact route_github_parse_none fns [("x-github-event", "push")] "body" p "" "" "" ""
      (by decide) hp rfl hparse
  · have e1 : headersGet [("x-github-event", "push"), ("x-hub-signature", "bad")]
        "x-hub-signature" = some "bad" := rfl
    have hv : ¬ (("sha1=" ++ fns.hmacSha1 "k" "body") = "bad") := by
      intro h
      have h2 := congrArg String.length h
      rw [String.length_append] at h2
      have h3 : ("sha1=" : String).length = 5 := rfl
      have h4 : ("bad" : String).length = 3 := rfl
      omega
    have hok : verify_signature fns "body" "k" "bad" "sha1" = false := by
      rw [verify_signature, if_neg (show ¬ ("k" : String) = "" by decide),
          if_neg (show ¬ ("bad" : String) = "" by decide), if_pos rfl]
      simp [hv]
    have hparse : parse_github_payload fns
        [("x-github-event", "push"), ("x-hub-signature", "bad")] pushPayload1 "k"
        (some "body") = none := by
      simp only [parse_github_payload, e1, Option.getD_some, hok]
      simp
    exact route_github_parse_none fns
      [("x-github-event", "push"), ("x-hub-signature", "bad")] "body" pushPayload1
      "k" "" "" "" (by decide) rfl rfl hparse

/-- Witness for `c1_noevent_routing` at the concrete empty-commits
payload. -/
theorem c1_noevent_routing_witness :
    emptyPushPayload.truthy = true
    ∧ (emptyPushPayload.getN "commits").truthy = false
    ∧ handle_git_webhook fns0 [("x-github-event", "push")] "body" (some emptyPushPayload)
        "" "" "" "" = .reject 400 "Git WebHook负载解析失败或签名验证失败。" :=
  ⟨rfl, rfl, (c1_noevent_routing fns0 emptyPushPayload rfl rfl).1⟩

theorem c2gh (fns : ExtFns) (s b b' : String) (hs : s ≠ "")
    (h1 : fns.hmacSha1 s b ≠ fns.hmacSha1 s b') :
    (parse_github_payload fns
        [("x-github-event", "push"), ("x-hub-signature", "sha1=" ++ fns.hmacSha1 s b)]
        pushPayload1 s (some b)).isSome = true
    ∧ parse_github_payload fns
        [("x-github-event", "push"), ("x-hub-signature", "sha1=" ++ fns.hmacSha1 s b)]
        pushPayload1 s (some b') = none := by
  have e1 : headersGet [("x-github-event", "push"),
      ("x-hub-signature", "sha1=" ++ fns.hmacSha1 s b)] "x-hub-signature"
      = some ("sha1=" ++ fns.hmacSha1 s b) := rfl
  have e2 : headersGet [("x-github-event", "push"),
      ("x-hub-signature", "sha1=" ++ fns.hmacSha1 s b)] "x-github-event"
      = some "push" := rfl
  have hne : ("sha1=" ++ fns.hmacSha1 s b) ≠ "" := prefixed_ne_empty _ _ (by decide)
  constructor
  · simp only [parse_github_payload, e1, e2, Option.getD_some]
    rw [verify_signature, if_neg hs, if_neg hne, if_pos rfl]
    simp [pushPayload1, Json.getN, Json.getD, Json.lookup, Json.lookupKey, Json.truthy]
  · have hm : ¬ (("sha1=" ++ fns.hmacSha1 s b') = ("sha1=" ++ fns.hmacSha1 s b)) := by
      intro h
      exact h1 ((prefixed_inj _ _ _ h).symm)
    simp only [parse_github_payload, e1, Option.getD_some]
    rw [verify_signature, if_neg hs, if_neg hne, if_pos rfl]
    simp [hm]

theorem c2gitea (fns : ExtFns) (s b b' : String) (hs : s ≠ "")
    (h2e : fns.hmacSha256 s b ≠ "")
    (h2 : fns.hmacSha256 s b ≠ fns.hmacSha256 s b') :
    (parse_gitea_payload fns
        [("x-gitea-event", "push"), ("x-gitea-signature", fns.hmacSha256 s b)]
        pushPayload1 s (some b)).isSome = true
    ∧ parse_gitea_payload fns
        [("x-gitea-event", "push"), ("x-gitea-signature", fns.hmacSha256 s b)]
        pushPayload1 s (some b') = none := by
  have e1 : headersGet [("x-gitea-event", "push"),
      ("x-gitea-signature", fns.hmacSha256 s b)] "x-gitea-signature"
      = some (fns.hmacSha256 s b) := rfl
  have e2 : headersGet [("x-gitea-event", "push"),
      ("x-gitea-signature", fns.hmacSha256 s b)] "x-gitea-event"
      = some "push" := rfl
  constructor
  · simp only [parse_gitea_payload, e1, e2, Option.getD_some]
    rw [verify_signature, if_neg hs, if_neg h2e]
    simp [pushPayload1, Json.getN, Json.getD, Json.lookup, Json.lookupKey, Json.truthy]
  · simp only [parse_gitea_payload, e1, e2, Option.getD_some]
    rw [verify_signature, if_neg hs, if_neg h2e]
    simp [Ne.symm h2]

theorem c2netlify (fns : ExtFns) (s b b' : String) (hs : s ≠ "")
    (h2e : fns.hmacSha256 s b ≠ "")
    (h2 : fns.hmacSha256 s b ≠ fns.hmacSha256 s b') :
    (netlify_parse_payload fns [("X-Webhook-Signature", fns.hmacSha256 s b)]
        netlifyPayload1 s b).isSome = true
    ∧ netlify_parse_payload fns [("X-Webhook-Signature", fns.hmacSha256 s b)]
        netlifyPayload1 s b' = none := by
  have e1 : rawHeaderGet [("X-Webhook-Signature", fns.hmacSha256 s b)] "X-Webhook-Signature"
      = some (fns.hmacSha256 s b) := rfl
  constructor
  · simp only [netlify_parse_payload, e1]
    rw [if_pos hs]
    simp [h2e, netlifyPayload1, Json.getStrD, Json.lookup, Json.lookupKey]
  · simp only [netlify_parse_payload, e1]
    rw [if_pos hs]
    simp [h2e, h2]

theorem c2generic (fns : ExtFns) (s b b' : String) (hs : s ≠ "")
    (h2 : fns.hmacSha256 s b ≠ fns.hmacSha256 s b') :
    (generic_parse_payload fns [("x-hub-signature-256", "sha256=" ++ fns.hmacSha256 s b)]
        (.obj [("k", .str "v")]) s b).isSome = true
    ∧ generic_parse_payload fns [("x-hub-signature-256", "sha256=" ++ fns.hmacSha256 s b)]
        (.obj [("k", .str "v")]) s b' = none := by
  have e1 : rawHeaderGet [("x-hub-signature-256", "sha256=" ++ fns.hmacSha256 s b)]
      "x-hub-signature-256" = some ("sha256=" ++ fns.hmacSha256 s b) := rfl
  have hne : ("sha256=" ++ fns.hmacSha256 s b) ≠ "" := prefixed_ne_empty _ _ (by decide)
  have hsw := strStartsWith_append "sha256=" (fns.hmacSha256 s b)
  have hm : ¬ (("sha256=" ++ fns.hmacSha256 s b) = ("sha256=" ++ fns.hmacSha256 s b')) := by
    intro h
    exact h2 (prefixed_inj _ _ _ h)
  constructor
  · simp only [generic_parse_payload, e1, optTruthy]
    rw [if_pos hs]
    simp [hne, hsw]
  · simp only [generic_parse_payload, e1, optTruthy]
    rw [if_pos hs]
    simp [hne, hsw, hm]

theorem c2gogs (fns : ExtFns) (s : String) (hs : s ≠ "")
    (hge : fns.hmacSha256 s (fns.dumps pushPayload1) ≠ "")
    (hg : fns.hmacSha256 s (fns.dumps pushPayload1)
      ≠ fns.hmacSha256 s (fns.dumps pushPayload2)) :
    (parse_gogs_payload fns
        [("x-gogs-event", "push"),
         ("x-gogs-signature", fns.hmacSha256 s (fns.dumps pushPayload1))]
        pushPayload1 s).isSome = true
    ∧ parse_gogs_payload fns
        [("x-gogs-event", "push"),
         ("x-gogs-signature", fns.hmacSha256 s (fns.dumps pushPayload1))]
        pushPayload2 s = none := by
  have e1 : headersGet [("x-gogs-event", "push"),
      ("x-gogs-signature", fns.hmacSha256 s (fns.dumps pushPayload1))] "x-gogs-signature"
      = some (fns.hmacSha256 s (fns.dumps pushPayload1)) := rfl
  have e2 : headersGet [("x-gogs-event", "push"),
      ("x-gogs-signature", fns.hmacSha256 s (fns.dumps pushPayload1))] "x-gogs-event"
      = some "push" := rfl
  constructor
  · simp only [parse_gogs_payload, e1, e2]
    rw [if_pos hs, if_neg hge]
    simp [pushPayload1, Json.getN, Json.getD, Json.lookup, Json.lookupKey, Json.truthy]
  · simp only [parse_gogs_payload, e1, e2]
    rw [if_pos hs, if_neg hge]
    simp [hg]

/-- C2 (corrected): as the claim states it — every platform with a
non-empty secret rejects a one-byte body alteration — the claim is
false for GitLab: the shared-token check never reads the body, so two
payloads whose raw bodies differ in one byte (the commit message `m1`
versus `m2`) are both accepted under the same unchanged token. -/
theorem c2_counterexample :
    (parse_gitlab_payload [("x-gitlab-event", "Push Hook"), ("x-gitlab-token", "k")]
        pushPayload1 "k").isSome = true
    ∧ (parse_gitlab_payload [("x-gitlab-event", "Push Hook"), ("x-gitlab-token", "k")]
        pushPayload2 "k").isSome = true
    ∧ pushPayload1 ≠ pushPayload2 := by
  refine ⟨rfl, rfl, ?_⟩
  intro h
  have h2 := congrArg fns0.dumps h
  rw [show fns0.dumps pushPayload1 = "m1" from rfl,
      show fns0.dumps pushPayload2 = "m2" from rfl] at h2
  exact absurd h2 (by decide)

/-- C2 (amended): for the platforms whose scheme is an HMAC over the
verified bytes — GitHub (`sha1=`-prefixed HMAC-SHA1 over the raw body),
Gitea (bare HMAC-SHA256 over the raw body), Netlify (bare HMAC-SHA256
over the raw body), the generic endpoint (`sha256=`-prefixed HMAC-SHA256
over the raw body), and Gogs (HMAC-SHA256 over the canonical
re-serialization of the parsed payload, the only bytes its parse method
sees) — a request presenting the correct signature is accepted, and a
request whose verified bytes changed, with the presented signature left
unchanged and the MACs of the two byte strings distinct, is rejected.
GitLab's shared-token scheme does not bind the body: an altered body
with an unchanged correct token is still accepted. -/
theorem c2_hmac_platforms (fns : ExtFns) (s b b' : String) (hs : s ≠ "")
    (h1 : fns.hmacSha1 s b ≠ fns.hmacSha1 s b')
    (h2e : fns.hmacSha256 s b ≠ "")
    (h2 : fns.hmacSha256 s b ≠ fns.hmacSha256 s b')
    (hge : fns.hmacSha256 s (fns.dumps pushPayload1) ≠ "")
    (hg : fns.hmacSha256 s (fns.dumps pushPayload1)
      ≠ fns.hmacSha256 s (fns.dumps pushPayload2)) :
    ((parse_github_payload fns
        [("x-github-event", "push"), ("x-hub-signature", "sha1=" ++ fns.hmacSha1 s b)]
        pushPayload1 s (some b)).isSome = true
      ∧ parse_github_payload fns
          [("x-github-event", "push"), ("x-hub-signature", "sha1=" ++ fns.hmacSha1 s b)]
          pushPayload1 s (some b') = none)
    ∧ ((parse_gitea_payload fns
        [("x-gitea-event", "push"), ("x-gitea-signature", fns.hmacSha256 s b)]
        pushPayload1 s (some b)).isSome = true
      ∧ parse_gitea_payload fns
          [("x-gitea-event", "push"), ("x-gitea-signature", fns.hmacSha256 s b)]
          pushPayload1 s (some b') = none)
    ∧ ((netlify_parse_payload fns [("X-Webhook-Signature", fns.hmacSha256 s b)]
        netlifyPayload1 s b).isSome = true
      ∧ netlify_parse_payload fns [("X-Webhook-Signature", fns.hmacSha256 s b)]
          netlifyPayload1 s b' = none)
    ∧ ((generic_parse_payload fns
        [("x-hub-signature-256", "sha256=" ++ fns.hmacSha256 s b)]
        (.obj [("k", .str "v")]) s b).isSome = true
      ∧ generic_parse_payload fns
          [("x-hub-signature-256", "sha256=" ++ fns.hmacSha256 s b)]
          (.obj [("k", .str "v")]) s b' = none)
    ∧ ((parse_gogs_payload fns
        [("x-gogs-event", "push"),
         ("x-gogs-signature", fns.hmacSha256 s (fns.dumps pushPayload1))]
        pushPayload1 s).isSome = true
      ∧ parse_gogs_payload fns
          [("x-gogs-event", "push"),
           ("x-gogs-signature", fns.hmacSha256 s (fns.dumps pushPayload1))]
          pushPayload2 s = none)
    ∧ ((parse_gitlab_payload [("x-gitlab-event", "Push Hook"), ("x-gitlab-token", s)]
        pushPayload1 s).isSome = true
      ∧ (parse_gitlab_payload [("x-gitlab-event", "Push Hook"), ("x-gitlab-token", s)]
          pushPayload2 s).isSome = true) := by
  refine ⟨c2gh fns s b b' hs h1, c2gitea fns s b b' hs h2e h2,
    c2netlify fns s b b' hs h2e h2, c2generic fns s b b' hs h2,
    c2gogs fns s hs hge hg, ?_, ?_⟩
  · have e1 : headersGet [("x-gitlab-event", "Push Hook"), ("x-gitlab-token", s)]
        "x-gitlab-token" = some s := rfl
    have e2 : headersGet [("x-gitlab-event", "Push Hook"), ("x-gitlab-token", s)]
        "x-gitlab-event" = some "Push Hook" := rfl
    simp only [parse_gitlab_payload, e1, e2, optTruthy]
    rw [if_neg (by simp), if_neg (by simp [hs]), if_neg (by simp)]
    simp [pushPayload1, Json.getN, Json.getD, Json.lookup, Json.lookupKey, Json.truthy]
  · have e1 : headersGet [("x-gitlab-event", "Push Hook"), ("x-gitlab-token", s)]
        "x-gitlab-token" = some s := rfl
    have e2 : headersGet [("x-gitlab-event", "Push Hook"), ("x-gitlab-token", s)]
        "x-gitlab-event" = some "Push Hook" := rfl
    simp only [parse_gitlab_payload, e1, e2, optTruthy]
    rw [if_neg (by simp), if_neg (by simp [hs]), if_neg (by simp)]
    simp [pushPayload2, Json.getN, Json.getD, Json.lookup, Json.lookupKey, Json.truthy]

/-- Witness for `c2_hmac_platforms` at the concrete primitives `fns0`. -/
theorem c2_hmac_platforms_witness :
    ("k" : String) ≠ ""
    ∧ fns0.hmacSha1 "k" "x" ≠ fns0.hmacSha1 "k" "y"
    ∧ fns0.hmacSha256 "k" (fns0.dumps pushPayload1)
        ≠ fns0.hmacSha256 "k" (fns0.dumps pushPayload2)
    ∧ (parse_github_payload fns0
        [("x-github-event", "push"), ("x-hub-signature", "sha1=" ++ fns0.hmacSha1 "k" "x")]
        pushPayload1 "k" (some "x")).isSome = true :=
  ⟨by decide, by decide, by decide,
    (c2_hmac_platforms fns0 "k" "x" "y" (by decide) (by decide) (by decide) (by decide)
      (by decide) (by decide)).1.1⟩

/-- C3: for every platform an empty configured secret makes verification
pass: the shared verifier returns `True` before looking at the header,
and each parse function's outcome is invariant in the signature header's
presence and value (the token header for GitLab), so no request is ever
rejected for a signature reason. -/
theorem c3_empty_secret_passes :
    (∀ fns b sig algo, verify_signature fns b "" sig algo = true)
    ∧ (∀ fns p b v, parse_github_payload fns
          [("x-github-event", "push"), ("x-hub-signature", v)] p "" (some b)
        = parse_github_payload fns [("x-github-event", "push")] p "" (some b))
    ∧ (∀ p v, parse_gitlab_payload
          [("x-gitlab-event", "Push Hook"), ("x-gitlab-token", v)] p ""
        = parse_gitlab_payload [("x-gitlab-event", "Push Hook")] p "")
    ∧ (∀ fns p b v, parse_gitea_payload fns
          [("x-gitea-event", "push"), ("x-gitea-signature", v)] p "" (some b)
        = parse_gitea_payload fns [("x-gitea-event", "push")] p "" (some b))
    ∧ (∀ fns p v, parse_gogs_payload fns
          [("x-gogs-event", "push"), ("x-gogs-signature", v)] p ""
        = parse_gogs_payload fns [("x-gogs-event", "push")] p "")
    ∧ (∀ fns p b v, netlify_parse_payload fns [("X-Webhook-Signature", v)] p "" b
        = netlify_parse_payload fns [] p "" b)
    ∧ (∀ fns p b v, generic_parse_payload fns [("x-hub-signature-256", v)] p "" b
        = generic_parse_payload fns [] p "" b)
    ∧ (∀ fns b sig, rss_verify_webhook_signature fns b "" sig = true) :=
  ⟨fun _ _ _ _ => rfl, fun _ _ _ _ => rfl, fun _ _ => rfl, fun _ _ _ _ => rfl,
   fun _ _ _ => rfl, fun _ _ _ _ => rfl, fun _ _ _ _ => rfl, fun _ _ _ => rfl⟩

/-- C4: on the RSS push-webhook path, signature verification is advisory:
`_verify_webhook_signature` returns `True` on every input (empty secret,
missing header, matching digest, and mismatching digest alike), and
`parse_rss_webhook` yields the same result for any two header maps —
in particular for a valid, an invalid, or an absent signature header. -/
theorem c4_rss_signature_advisory :
    (∀ fns b s sig, rss_verify_webhook_signature fns b s sig = true)
    ∧ (∀ h1 h2 p s b now, parse_rss_webhook h1 p s b now
        = parse_rss_webhook h2 p s b now) := by
  constructor
  · intro fns b s sig
    simp [rss_verify_webhook_signature]
  · intro _ _ _ _ _ _
    rfl

/-- C5 (corrected): as the claim states it — the concatenation of the
chunks, accounting for re-inserted line breaks, reproduces the original
text exactly — the claim is false: a 4001-character message consisting
of a newline followed by 4000 `a`s is split into the single chunk of
4000 `a`s, and no choice of re-inserted line breaks recovers the
original (the leading newline is lost when the empty first line leaves
`current` empty). -/
theorem c5_counterexample :
    exMessage.length > 4000
    ∧ telegramChunks exMessage = [List.replicate 4000 'a']
    ∧ ¬ reconstructs (telegramChunks exMessage) exMessage := by
  refine ⟨?_, exMessage_chunks, ?_⟩
  · rw [exMessage, List.length_cons, List.length_replicate]
    omega
  · rw [exMessage_chunks]
    rintro ⟨seps, _, hjoin⟩
    have hws : withSeps [List.replicate 4000 'a'] seps = List.replicate 4000 'a' := by
      cases seps <;> rfl
    rw [hws] at hjoin
    have hl := congrArg List.length hjoin
    rw [List.length_replicate, exMessage, List.length_cons, List.length_replicate] at hl
    omega

/-- C5 (amended): the Telegram dispatcher splits the display text into
ordered chunks each of length at most 4000, preferring line boundaries
and hard-splitting only oversized lines; the chunk sequence preserves
every non-newline character of the original in order, but newline
characters adjacent to empty line segments (for example a leading or
trailing newline) can be dropped, so exact reconstruction can fail. -/
theorem c5_chunking (msg : List Char) :
    (∀ c ∈ telegramChunks msg, c.length ≤ 4000)
    ∧ filterNl (telegramChunks msg).flatten = filterNl msg :=
  ⟨telegramChunks_le msg, telegramChunks_content msg⟩

/-- Witness for `c5_chunking` at a concrete two-character message. -/
theorem c5_chunking_witness :
    ['h', 'i'] ∈ telegramChunks ['h', 'i'] ∧ (['h', 'i'] : List Char).length ≤ 4000 :=
  ⟨by decide, (c5_chunking ['h', 'i']).1 ['h', 'i'] (by decide)⟩

/-- C6: an item unseen at the start of the first cycle is emitted exactly
once across two cycles that both present it, and its identity is in the
store exactly once afterwards; the identity is the MD5 of the GUID when
truthy, else of the permalink, else of title concatenated with the
published time. -/
theorem c6_deduplication (md5Hex : String → String) (a : Json) (seen : List String)
    (h : get_article_id md5Hex a ∉ seen) :
    ((checkFeedDiff md5Hex seen [a]).1.length
        + (checkFeedDiff md5Hex (checkFeedDiff md5Hex seen [a]).2 [a]).1.length = 1
      ∧ (checkFeedDiff md5Hex (checkFeedDiff md5Hex seen [a]).2 [a]).2.count
          (get_article_id md5Hex a) = 1)
    ∧ (∀ x : Json, (x.getN "guid").truthy = true →
        get_article_id md5Hex x = md5Hex (x.getStr "guid"))
    ∧ (∀ x : Json, (x.getN "guid").truthy = false → (x.getN "link").truthy = true →
        get_article_id md5Hex x = md5Hex (x.getStr "link"))
    ∧ (∀ x : Json, (x.getN "guid").truthy = false → (x.getN "link").truthy = false →
        get_article_id md5Hex x = md5Hex (x.getStr "title" ++ x.getStr "published")) := by
  refine ⟨?_, ?_, ?_, ?_⟩
  · simp only [checkFeedDiff, List.foldl, diffStep]
    rw [if_neg h]
    simp [List.count_append, List.count_eq_zero.mpr h]
  · intro x hx
    rw [get_article_id, if_pos hx]
  · intro x hg hl
    rw [get_article_id, if_neg (by simp [hg]), if_pos hl]
  · intro x hg hl
    rw [get_article_id, if_neg (by simp [hg]), if_neg (by simp [hl])]

/-- Witness for `c6_deduplication` at a concrete GUID-bearing article and
the identity hash function. -/
theorem c6_deduplication_witness :
    get_article_id (fun s => s) (Json.obj [("guid", Json.str "g")]) ∉ ([] : List String)
    ∧ (checkFeedDiff (fun s => s) [] [Json.obj [("guid", Json.str "g")]]).1.length
        + (checkFeedDiff (fun s => s)
            (checkFeedDiff (fun s => s) [] [Json.obj [("guid", Json.str "g")]]).2
            [Json.obj [("guid", Json.str "g")]]).1.length = 1 :=
  ⟨by simp,
   ((c6_deduplication (fun s => s) (Json.obj [("guid", Json.str "g")]) [] (by simp)).1).1⟩

/-- Projection dropping the wall-clock field of a normalized RSS event. -/
def eraseTimestamp (e : Event) : Event := e.filter (fun kv => kv.1 != "timestamp")

/-- C7 (corrected): as the claim states it — the RSS push-webhook path,
like the Git-host paths, yields structurally-equal events on repeated
normalization of the same verified inputs — the claim is false:
`parse_rss_webhook` stamps `datetime.now()` into the event, so the same
payload normalized at two different instants yields two different
events. -/
theorem c7_counterexample :
    parse_rss_webhook [] rssPayload1 "sec" (some "body") "2026-01-01T00:00:00"
      ≠ parse_rss_webhook [] rssPayload1 "sec" (some "body") "2026-01-01T00:00:01" := by
  intro h
  have h2 := congrArg (fun o => o.map (fun e => eventField e "timestamp")) h
  have e1 : (parse_rss_webhook [] rssPayload1 "sec" (some "body") "2026-01-01T00:00:00").map
      (fun e => eventField e "timestamp") = some (some (.str "2026-01-01T00:00:00")) := rfl
  have e2 : (parse_rss_webhook [] rssPayload1 "sec" (some "body") "2026-01-01T00:00:01").map
      (fun e => eventField e "timestamp") = some (some (.str "2026-01-01T00:00:01")) := rfl
  simp only [e1, e2, Option.some.injEq, Json.str.injEq] at h2
  exact absurd h2 (by decide)

/-- C7 (amended): the Git-host parse functions are pure functions of
headers, payload, secret and raw body by construction (they take no
clock input); the RSS webhook parse additionally reads the wall clock
into the `timestamp` field, and that field is the only difference: for
the same headers, payload, secret and body, the results at any two
instants agree after the timestamp field is erased. -/
theorem c7_normalization_determinism (headers : List (String × String)) (p : Json)
    (s : String) (b : Option String) (now1 now2 : String) :
    (parse_rss_webhook headers p s b now1).map eraseTimestamp
      = (parse_rss_webhook headers p s b now2).map eraseTimestamp := by
  unfold parse_rss_webhook
  split
  · split
    · simp [rssArticleEvent, eraseTimestamp]
    · rfl
  · rfl
  · split
    · simp [rssArticleEvent, eraseTimestamp]
    · rfl
    · rfl

/-- C8: attacker- or user-supplied free-text fields are bounded at
normalization time: the truncation expression keeps a text of at most
200 units unchanged and cuts a longer one to its 200-unit prefix plus an
ellipsis marker; and the normalized events of the `issue_comment` and
`pull_request_review` branches and of the generic fallback store exactly
that truncation of the raw comment or review body. -/
theorem c8_truncation :
    (∀ s : String, s.length ≤ 200 → truncateBody s = s)
    ∧ (∀ s : String, s.length > 200 →
        truncateBody s = strTake s 200 ++ "..." ∧ (strTake s 200).length = 200)
    ∧ (∀ p : Json, eventField (githubIssueCommentEvent p) "comment_body"
        = some (.str (truncateBody ((p.getD "comment" (.obj [])).getStr "body"))))
    ∧ (∀ p : Json, eventField (githubPullRequestReviewEvent p) "review_body"
        = some (.str (truncateBody ((p.getD "review" (.obj [])).getStr "body"))))
    ∧ (∀ ev p, (p.lookup "comment").isSome = true →
        eventField (parseGenericGithubEvent ev p) "comment_body"
          = some (.str (truncateBody ((p.getN "comment").getStr "body")))) := by
  refine ⟨?_, ?_, fun p => rfl, fun p => rfl, generic_comment_body⟩
  · intro s hle
    rw [truncateBody, if_neg (by omega)]
  · intro s hgt
    constructor
    · rw [truncateBody, if_pos hgt]
    · rw [show (strTake s 200).length = (s.data.take 200).length from rfl, List.length_take]
      rw [strLenData] at hgt
      omega

/-- Witness for `c8_truncation` at a short and a 201-character body. -/
theorem c8_truncation_witness :
    ("hi" : String).length ≤ 200
    ∧ truncateBody "hi" = "hi"
    ∧ (String.mk (List.replicate 201 'a')).length > 200
    ∧ truncateBody (String.mk (List.replicate 201 'a'))
        = strTake (String.mk (List.replicate 201 'a')) 200 ++ "..." := by
  have hlong : (String.mk (List.replicate 201 'a')).length > 200 := by
    rw [strLenData]
    rw [show (String.mk (List.replicate 201 'a')).data = List.replicate 201 'a' from rfl,
        List.length_replicate]
    omega
  exact ⟨by decide, (c8_truncation.1 "hi" (by decide)),
    hlong, ((c8_truncation.2.1 (String.mk (List.replicate 201 'a')) hlong).1)⟩

/-- C9: a GitHub event kind with no dedicated branch is neither dropped
nor an error: with verification passing, the parse function returns the
generic extractor's event; that event's `event_kind` field is the
literal discriminator header value; and the generic extractor equals the
registry-style flattening that folds into the base fields exactly the
blocks of those well-known nested objects that are present, in fixed
order. -/
theorem c9_generic_fallback (fns : ExtFns) (headers : List (String × String))
    (p : Json) (b : String) (e : String)
    (hev : headersGet headers "x-github-event" = some e)
    (hne : e ∉ mappedGithubEvents) :
    parse_github_payload fns headers p "" (some b)
      = some (parseGenericGithubEvent (some e) p)
    ∧ eventField (parseGenericGithubEvent (some e) p) "event_type" = some (.str e)
    ∧ parseGenericGithubEvent (some e) p = flattenPresentBlocks (some e) p :=
  ⟨parse_unmapped_is_generic fns headers p b e hev hne,
   by rw [generic_event_type]; rfl,
   parseGeneric_eq_flatten (some e) p⟩

/-- Witness for `c9_generic_fallback` at the unmapped event kind `star`. -/
theorem c9_generic_fallback_witness :
    headersGet [("x-github-event", "star")] "x-github-event" = some "star"
    ∧ "star" ∉ mappedGithubEvents
    ∧ parse_github_payload fns0 [("x-github-event", "star")] (.obj [("k", .str "v")]) ""
        (some "b")
      = some (parseGenericGithubEvent (some "star") (.obj [("k", .str "v")])) :=
  ⟨rfl, by decide,
   (c9_generic_fallback fns0 [("x-github-event", "star")] (.obj [("k", .str "v")]) "b"
      "star" rfl (by decide)).1⟩

/-- C10: for GitLab, Gitea and Gogs every payload whose event header is
not the push event yields no event even though verification succeeds
(an empty secret passes unconditionally): each parse function returns
`None`; only the GitHub parse function has a generic unmapped-event
fallback. -/
theorem c10_nonpush_only_github_fallback :
    (∀ (p : Json) (v : String), v ≠ "Push Hook" →
      parse_gitlab_payload [("x-gitlab-event", v)] p "" = none)
    ∧ (∀ (fns : ExtFns) (p : Json) (b v : String), v ≠ "push" →
      parse_gitea_payload fns [("x-gitea-event", v)] p "" (some b) = none)
    ∧ (∀ (fns : ExtFns) (p : Json) (v : String), v ≠ "push" →
      parse_gogs_payload fns [("x-gogs-event", v)] p "" = none) := by
  refine ⟨?_, ?_, ?_⟩
  · intro p v hv
    have e1 : headersGet [("x-gitlab-event", v)] "x-gitlab-event" = some v := rfl
    simp only [parse_gitlab_payload, e1]
    rw [if_neg (by simp), if_neg (by simp), if_pos (by simpa using hv)]
  · intro fns p b v hv
    have e1 : headersGet [("x-gitea-event", v)] "x-gitea-event" = some v := rfl
    have e2 : headersGet [("x-gitea-event", v)] "x-gitea-signature" = none := rfl
    simp only [parse_gitea_payload, e1, e2, verify_signature, if_pos rfl]
    rw [if_neg (by simp)]
    rw [if_pos (by simpa using hv)]
  · intro fns p v hv
    have e1 : headersGet [("x-gogs-event", v)] "x-gogs-event" = some v := rfl
    simp only [parse_gogs_payload, e1]
    rw [if_neg (by simp), if_pos (by simpa using hv)]

/-- Witness for `c10_nonpush_only_github_fallback` at concrete non-push
event kinds. -/
theorem c10_nonpush_witness :
    ("Tag Push Hook" : String) ≠ "Push Hook"
    ∧ parse_gitlab_payload [("x-gitlab-event", "Tag Push Hook")] pushPayload1 "" = none
    ∧ ("release" : String) ≠ "push"
    ∧ parse_gogs_payload fns0 [("x-gogs-event", "release")] pushPayload1 "" = none :=
  ⟨by decide, c10_nonpush_only_github_fallback.1 pushPayload1 "Tag Push Hook" (by decide),
   by decide, c10_nonpush_only_github_fallback.2.2 fns0 pushPayload1 "release" (by decide)⟩

end WebhookNotifier
